import Mathlib

/-!
Verification development for the agent core of the twitter-automation-ai
repository.  The Python sources under src/src/agents are shallowly embedded:
pure functions become Lean functions, Python exceptions become values of
an error type carried in Except, dictionaries become association lists in
insertion order, and datetime objects become an abstract wrapper so that
json serialization failures on them are observable.  Numbers are embedded
as rationals.  json.loads and datetime.fromisoformat are standard-library
collaborators and are passed in as explicit oracle parameters.
-/

/-- Python exception kinds that the embedded code can raise. -/
inductive PyErr where
  | valueError (msg : String)
  | validationError
  | jsonDecodeError
  | typeError
  | keyError
  | attributeError
  | nameError
  deriving DecidableEq, Repr

/-- Model of datetime.datetime: an abstract timestamp. -/
structure PyDateTime where
  stamp : Int
  deriving DecidableEq, Repr

/-- Abstract rendering of datetime.isoformat (injective encoding). -/
def PyDateTime.iso (d : PyDateTime) : String :=
  "dt:" ++ toString d.stamp

/-- Python whitespace characters recognised by str.strip (ASCII part). -/
def pySpace (c : Char) : Bool :=
  c = ' ' || c = '\t' || c = '\n' || c = '\r' || c = '\x0b' || c = '\x0c'

/-- Right strip: remove trailing whitespace. -/
def stripR (l : List Char) : List Char :=
  (l.reverse.dropWhile pySpace).reverse

/-- Model of Python str.strip(): remove leading and trailing whitespace. -/
def pyStrip (l : List Char) : List Char :=
  stripR (l.dropWhile pySpace)

/-- The seven characters of the json fence opener. -/
def tick3json : List Char := "```json".toList

/-- The three characters of a bare fence. -/
def tick3 : List Char := "```".toList

/--
Embedding of TwitterAgentCore._clean_json_response
(src/src/agents/core_agent.py lines 126-148; the identical method also
appears as BaseSpecializedAgent._clean_json_response in
src/src/agents/specialized/base_agent.py lines 43-65).
-/
def cleanJsonResponse (response : List Char) : List Char :=
  if response = [] then response
  else
    let cleaned := pyStrip response
    let cleaned :=
      if tick3json.isPrefixOf cleaned then cleaned.drop 7
      else if tick3.isPrefixOf cleaned then cleaned.drop 3
      else cleaned
    let cleaned :=
      if tick3.isSuffixOf cleaned then cleaned.take (cleaned.length - 3)
      else cleaned
    pyStrip cleaned

/-- String-level wrapper of the cleaner. -/
def cleanStr (s : String) : String :=
  (cleanJsonResponse s.toList).asString

lemma dropWhile_idem (p : Char → Bool) (l : List Char) :
    (l.dropWhile p).dropWhile p = l.dropWhile p := by
  induction l with
  | nil => rfl
  | cons a t ih =>
    by_cases h : p a
    · simp [List.dropWhile, h, ih]
    · simp [List.dropWhile, h]

lemma dropWhile_isSuffix (p : Char → Bool) (l : List Char) :
    l.dropWhile p <:+ l := by
  induction l with
  | nil => exact ⟨[], rfl⟩
  | cons a t ih =>
    by_cases h : p a
    · simpa [List.dropWhile, h] using ih.trans ⟨[a], rfl⟩
    · simp [List.dropWhile, h]

lemma length_dropWhile_le (p : Char → Bool) (l : List Char) :
    (l.dropWhile p).length ≤ l.length := by
  induction l with
  | nil => simp
  | cons a t ih =>
    by_cases h : p a
    · simp only [List.dropWhile, h]
      exact ih.trans (Nat.le_succ _)
    · simp [List.dropWhile, h]

lemma dropWhile_fix_of_prefix (p : Char → Bool) {l z : List Char}
    (hl : l.dropWhile p = l) (hz : z <+: l) : z.dropWhile p = z := by
  cases z with
  | nil => rfl
  | cons a t =>
    obtain ⟨r, hr⟩ := hz
    have ha : p a = false := by
      by_contra hpa
      have hpa' : p a = true := by
        cases h : p a
        · exact absurd h hpa
        · rfl
      have h1 : l.dropWhile p = (t ++ r).dropWhile p := by
        rw [← hr]
        simp [List.dropWhile, hpa']
      have h2 : (l.dropWhile p).length ≤ (t ++ r).length := by
        rw [h1]; exact length_dropWhile_le _ _
      rw [hl, ← hr] at h2
      simp at h2
    simp [List.dropWhile, ha]

lemma pyStrip_idem (l : List Char) : pyStrip (pyStrip l) = pyStrip l := by
  set u := l.dropWhile pySpace with hu
  have hufix : u.dropWhile pySpace = u := by
    rw [hu]; exact dropWhile_idem _ _
  set y := stripR u with hy
  have hyrev : y.reverse = u.reverse.dropWhile pySpace := by
    rw [hy]; simp [stripR]
  -- y is a prefix of u
  have hpre : y <+: u := by
    have hsuf : u.reverse.dropWhile pySpace <:+ u.reverse :=
      dropWhile_isSuffix _ _
    obtain ⟨t, ht⟩ := hsuf
    refine ⟨t.reverse, ?_⟩
    have := congrArg List.reverse ht
    simpa [hyrev.symm] using this
  have hyfix : y.dropWhile pySpace = y :=
    dropWhile_fix_of_prefix _ hufix hpre
  have hystrip : stripR y = y := by
    have : y.reverse.dropWhile pySpace = y.reverse := by
      rw [hyrev]
      exact dropWhile_idem _ _
    simp [stripR, this]
  show stripR ((stripR u).dropWhile pySpace) = stripR u
  rw [← hy, hyfix, hystrip]

lemma pyStrip_clean (s : List Char) :
    pyStrip (cleanJsonResponse s) = cleanJsonResponse s := by
  by_cases h : s = []
  · subst h; rfl
  · simp only [cleanJsonResponse, if_neg h]
    exact pyStrip_idem _

/--
C3 counterexample: on the input consisting of six backticks followed by
json, one application of the cleaner yields a seven character string
starting with a fence, and a second application strips that fence, so the
cleaner is not idempotent.
-/
theorem c3_clean_not_idempotent :
    cleanJsonResponse (cleanJsonResponse "``````json".toList) ≠
      cleanJsonResponse "``````json".toList := by
  decide

/--
C3 amended: the cleaner maps the empty string to itself, and it is
idempotent on every input whose cleaned output neither starts nor ends
with a triple backtick fence (it is not idempotent in general, see the
counterexample).
-/
theorem c3_clean_idempotent_when_unfenced (s : List Char)
    (hpre : tick3.isPrefixOf (cleanJsonResponse s) = false)
    (hsuf : tick3.isSuffixOf (cleanJsonResponse s) = false) :
    cleanJsonResponse [] = [] ∧
      cleanJsonResponse (cleanJsonResponse s) = cleanJsonResponse s := by
  refine ⟨rfl, ?_⟩
  set c := cleanJsonResponse s with hc
  by_cases hnil : c = []
  · rw [hnil]; rfl
  · have hstrip : pyStrip c = c := by rw [hc]; exact pyStrip_clean s
    have hpj : tick3json.isPrefixOf c = false := by
      by_contra hmem
      have hmem' : tick3json.isPrefixOf c = true := by
        cases h : tick3json.isPrefixOf c
        · exact absurd h hmem
        · rfl
      have h1 : tick3json <+: c := by
        exact List.isPrefixOf_iff_prefix.mp hmem'
      have h2 : tick3 <+: tick3json := by decide
      have h3 : tick3 <+: c := h2.trans h1
      rw [← List.isPrefixOf_iff_prefix] at h3
      rw [h3] at hpre
      exact Bool.noConfusion hpre
    simp only [cleanJsonResponse, if_neg hnil, hstrip, hpj, Bool.false_eq_true,
      if_false, hpre, hsuf]

/-- Closed witness for the amended C3 theorem at a concrete fenced input. -/
theorem c3_clean_idempotent_when_unfenced_witness :
    cleanJsonResponse (cleanJsonResponse "```json hi```".toList) =
      cleanJsonResponse "```json hi```".toList :=
  (c3_clean_idempotent_when_unfenced "```json hi```".toList
    (by decide) (by decide)).2

/-!
## Python / JSON value model

json.loads output and Python runtime values flowing through the agent code
are embedded as PVal.  datetime objects get their own constructor so that
json.dump failures on them are observable.  Container rendering inside
f-strings is abstracted (the claims never inspect those strings).
-/

/-- Embedded Python value (JSON values plus datetime objects). -/
inductive PVal where
  | null
  | bool (b : Bool)
  | num (q : Rat)
  | str (s : String)
  | datetime (d : PyDateTime)
  | arr (elems : List PVal)
  | obj (fields : List (String × PVal))

/-- Shallow f-string rendering of a value (containers abstracted). -/
def pvalFmt : PVal → String
  | .null => "None"
  | .bool b => if b then "True" else "False"
  | .num q => toString q
  | .str s => s
  | .datetime d => d.iso
  | .arr _ => "<list>"
  | .obj _ => "<dict>"

/-- Rendering of an exception in an f-string. -/
def pyErrFmt : PyErr → String
  | .valueError m => m
  | .validationError => "validation error"
  | .jsonDecodeError => "json decode error"
  | .typeError => "type error"
  | .keyError => "key error"
  | .attributeError => "attribute error"
  | .nameError => "name error"

/-- Python d.get(key, default): AttributeError when d is not a dict. -/
def pyGetE (v : PVal) (k : String) (dflt : PVal) : Except PyErr PVal :=
  match v with
  | .obj fs => .ok ((fs.lookup k).getD dflt)
  | _ => .error .attributeError

/-- Python d[key]: KeyError when absent, TypeError when d not a dict. -/
def pyIndexE (v : PVal) (k : String) : Except PyErr PVal :=
  match v with
  | .obj fs =>
    match fs.lookup k with
    | some x => .ok x
    | none => .error .keyError
  | _ => .error .typeError

/-- Numeric content of a value in a comparison with a float
(Python bool is an int; anything else raises TypeError). -/
def pyToNum : PVal → Except PyErr Rat
  | .num q => .ok q
  | .bool b => .ok (if b then 1 else 0)
  | _ => .error .typeError

/-- Python iteration (for x in v): arrays yield elements, dicts yield
keys, strings yield characters, the rest raises TypeError. -/
def pyIter : PVal → Except PyErr (List PVal)
  | .arr l => .ok l
  | .obj fs => .ok (fs.map (fun kv => .str kv.1))
  | .str s => .ok (s.toList.map (fun c => .str c.toString))
  | _ => .error .typeError

/-- Test that a value is the given string. -/
def isStrEq (v : PVal) (s : String) : Bool :=
  match v with
  | .str t => t = s
  | _ => false

/-- Test that a value is a dict. -/
def isObj : PVal → Bool
  | .obj _ => true
  | _ => false

/-!
## Generic stable insertion sort on a boolean relation

sorted(...) in CPython is a stable sort; on a total transitive relation any
stable sort produces the same list as straightforward stable insertion,
which is what we embed and reason about.
-/

/-- Insert x before the first y with le x y (stable for a new rightmost
element when processing right-to-left as insSortLe does). -/
def insertLe {α : Type} (le : α → α → Bool) (x : α) : List α → List α
  | [] => [x]
  | y :: t => if le x y then x :: y :: t else y :: insertLe le x t

/-- Stable insertion sort by a boolean relation. -/
def insSortLe {α : Type} (le : α → α → Bool) : List α → List α
  | [] => []
  | x :: t => insertLe le x (insSortLe le t)

lemma mem_insertLe {α : Type} (le : α → α → Bool) (x a : α) (l : List α) :
    a ∈ insertLe le x l ↔ a = x ∨ a ∈ l := by
  induction l with
  | nil => simp [insertLe]
  | cons y t ih =>
    by_cases h : le x y
    · simp [insertLe, h]
    · simp [insertLe, h, ih]
      tauto

lemma mem_insSortLe {α : Type} (le : α → α → Bool) (a : α) (l : List α) :
    a ∈ insSortLe le l ↔ a ∈ l := by
  induction l with
  | nil => simp [insSortLe]
  | cons x t ih =>
    simp [insSortLe, mem_insertLe, ih]

lemma insertLe_sorted {α : Type} (le : α → α → Bool)
    (htot : ∀ a b, le a b = false → le b a = true)
    (htrans : ∀ a b c, le a b = true → le b c = true → le a c = true)
    (x : α) (l : List α) (hl : l.Pairwise (le · · = true)) :
    (insertLe le x l).Pairwise (le · · = true) := by
  induction l with
  | nil => simp [insertLe]
  | cons y t ih =>
    rcases List.pairwise_cons.mp hl with ⟨hy, ht⟩
    by_cases h : le x y = true
    · rw [insertLe, if_pos h]
      refine List.pairwise_cons.mpr ⟨?_, hl⟩
      intro b hb
      rcases List.mem_cons.mp hb with hb | hb
      · subst hb; exact h
      · exact htrans _ _ _ h (hy b hb)
    · rw [insertLe, if_neg h]
      refine List.pairwise_cons.mpr ⟨?_, ih ht⟩
      intro b hb
      rcases (mem_insertLe le x b t).mp hb with hb | hb
      · subst hb
        exact htot _ _ (by simpa using h)
      · exact hy b hb

lemma insSortLe_sorted {α : Type} (le : α → α → Bool)
    (htot : ∀ a b, le a b = false → le b a = true)
    (htrans : ∀ a b c, le a b = true → le b c = true → le a c = true)
    (l : List α) : (insSortLe le l).Pairwise (le · · = true) := by
  induction l with
  | nil => simp [insSortLe]
  | cons x t ih => exact insertLe_sorted le htot htrans x _ ih

lemma insertLe_filter_pos {α : Type} (le : α → α → Bool) (q : α → Bool)
    (x : α) (l : List α) (hx : q x = true)
    (hskip : ∀ y, le x y = false → q y = false) :
    (insertLe le x l).filter q = x :: l.filter q := by
  induction l with
  | nil => simp [insertLe, hx]
  | cons y t ih =>
    by_cases h : le x y = true
    · rw [insertLe, if_pos h]
      simp [List.filter, hx]
    · rw [insertLe, if_neg h]
      have hy : q y = false := hskip y (by simpa using h)
      simp [List.filter, hy, ih]

lemma insertLe_filter_neg {α : Type} (le : α → α → Bool) (q : α → Bool)
    (x : α) (l : List α) (hx : q x = false) :
    (insertLe le x l).filter q = l.filter q := by
  induction l with
  | nil => simp [insertLe, hx]
  | cons y t ih =>
    by_cases h : le x y = true
    · rw [insertLe, if_pos h]
      simp [List.filter, hx]
    · rw [insertLe, if_neg h]
      simp [List.filter, ih]

/-- Stability of the insertion sort: the subsequence of entries in any
fixed key class is preserved, so equal keys keep original order. -/
lemma insSortLe_filter {α : Type} (le : α → α → Bool) (q : α → Bool)
    (hskip : ∀ x y, q x = true → le x y = false → q y = false)
    (l : List α) : (insSortLe le l).filter q = l.filter q := by
  induction l with
  | nil => rfl
  | cons x t ih =>
    show (insertLe le x (insSortLe le t)).filter q = _
    by_cases hx : q x = true
    · rw [insertLe_filter_pos le q x _ hx (hskip x · hx), ih]
      simp [List.filter, hx]
    · rw [insertLe_filter_neg le q x _ (by simpa using hx), ih]
      simp [List.filter, hx]

/-!
## C8: decision filtering in TwitterAgentCore._make_decisions
(src/src/agents/core_agent.py lines 354-415)

The LLM call is a collaborator: its outcome is the resp argument
(an exception or the returned text).  json.loads is the parse oracle.
-/

/-- The comprehension guard d.get("confidence", 0) >= self.decision_threshold
with the threshold fixed to 0.7 in TwitterAgentCore.__init__. -/
def confCheck (d : PVal) : Except PyErr Bool := do
  let c ← pyGetE d "confidence" (.num 0)
  let q ← pyToNum c
  pure (decide (mkRat 7 10 ≤ q))

/-- The list comprehension filtering decisions by confidence, evaluated
left to right, aborting on the first exception. -/
def filterByConf : List PVal → Except PyErr (List PVal)
  | [] => .ok []
  | d :: t => do
    let b ← confCheck d
    let r ← filterByConf t
    pure (if b then d :: r else r)

/--
Embedding of TwitterAgentCore._make_decisions: LLM call, cleaning,
a guard on the empty cleaned response, json decode, and the confidence
filter; every failure is converted to the empty decision list.
-/
def makeDecisions (resp : Except PyErr String)
    (parse : String → Option PVal) : List PVal :=
  match resp with
  | .error _ => []
  | .ok r =>
    let cleaned := cleanStr r
    if cleaned = "" then []
    else
      match parse cleaned with
      | none => []
      | some v =>
        match (do
            let elems ← pyIter v
            filterByConf elems : Except PyErr (List PVal)) with
        | .error _ => []
        | .ok ds => ds

/-- The confidence a decision object declares: the value under
"confidence" read as a number, 0 when the key is absent, none when the
decision is not a dict or the value is not numeric. -/
def declaredConfidence (d : PVal) : Option Rat :=
  match d with
  | .obj fs =>
    match fs.lookup "confidence" with
    | none => some 0
    | some (.num q) => some q
    | some (.bool b) => some (if b then 1 else 0)
    | some _ => none
  | _ => none

/-- Spec-side predicate from the claim: confidence at least 0.7. -/
def keepsDecision (d : PVal) : Bool :=
  decide (mkRat 7 10 ≤ (declaredConfidence d).getD 0)

lemma confCheck_of_declared (d : PVal) (q : Rat)
    (h : declaredConfidence d = some q) :
    confCheck d = .ok (decide (mkRat 7 10 ≤ q)) := by
  cases d with
  | obj fs =>
    simp only [declaredConfidence] at h
    cases hl : fs.lookup "confidence" with
    | none =>
      rw [hl] at h
      simp only [Option.some.injEq] at h
      subst h
      simp [confCheck, pyGetE, hl, pyToNum, Bind.bind, Except.bind, pure,
        Except.pure]
    | some v =>
      rw [hl] at h
      cases v <;> simp_all [confCheck, pyGetE, hl, pyToNum, Bind.bind,
        Except.bind, pure, Except.pure]
  | null => simp [declaredConfidence] at h
  | bool b => simp [declaredConfidence] at h
  | num q2 => simp [declaredConfidence] at h
  | str s => simp [declaredConfidence] at h
  | datetime dt => simp [declaredConfidence] at h
  | arr l => simp [declaredConfidence] at h

lemma filterByConf_ok (l : List PVal)
    (h : ∀ d ∈ l, (declaredConfidence d).isSome) :
    filterByConf l = .ok (l.filter keepsDecision) := by
  induction l with
  | nil => rfl
  | cons d t ih =>
    have hd : (declaredConfidence d).isSome := h d (List.mem_cons_self _ _)
    obtain ⟨q, hq⟩ := Option.isSome_iff_exists.mp hd
    have hrest := ih (fun e he => h e (List.mem_cons_of_mem _ he))
    have hc := confCheck_of_declared d q hq
    simp only [filterByConf, hc, hrest, Bind.bind, Except.bind, pure,
      Except.pure, List.filter, keepsDecision, hq, Option.getD_some]
    cases decide (mkRat 7 10 ≤ q) <;> rfl

/--
C8 confirmed: when the decision response decodes to a JSON array of
decision objects with numeric (or absent) confidence values,
_make_decisions keeps exactly the decisions whose confidence is at least
the 0.7 threshold, in their original order; in particular on confidences
[0.9, 0.5, 0.71, 0.3] exactly the first and third survive, in that order.
-/
theorem c8_confidence_filter :
    (∀ (resp : String) (parse : String → Option PVal) (l : List PVal),
        cleanStr resp ≠ "" →
        parse (cleanStr resp) = some (.arr l) →
        (∀ d ∈ l, (declaredConfidence d).isSome) →
        makeDecisions (.ok resp) parse = l.filter keepsDecision) ∧
      makeDecisions (.ok "[decisions]")
          (fun s => if s = "[decisions]" then
            some (.arr [.obj [("confidence", .num (mkRat 9 10))],
              .obj [("confidence", .num (mkRat 1 2))],
              .obj [("confidence", .num (mkRat 71 100))],
              .obj [("confidence", .num (mkRat 3 10))]]) else none) =
        [.obj [("confidence", .num (mkRat 9 10))],
          .obj [("confidence", .num (mkRat 71 100))]] := by
  constructor
  · intro resp parse l hne hparse hconf
    simp only [makeDecisions, if_neg hne, hparse, pyIter, Bind.bind,
      Except.bind, filterByConf_ok l hconf]
  · rfl

/-- Closed witness for C8 at the concrete example from the claim. -/
theorem c8_confidence_filter_witness :
    makeDecisions (.ok "[decisions]")
        (fun s => if s = "[decisions]" then
          some (.arr [.obj [("confidence", .num (mkRat 9 10))],
            .obj [("confidence", .num (mkRat 1 2))],
            .obj [("confidence", .num (mkRat 71 100))],
            .obj [("confidence", .num (mkRat 3 10))]]) else none) =
      ([.obj [("confidence", .num (mkRat 9 10))],
        .obj [("confidence", .num (mkRat 1 2))],
        .obj [("confidence", .num (mkRat 71 100))],
        .obj [("confidence", .num (mkRat 3 10))]] : List PVal).filter
          keepsDecision :=
  c8_confidence_filter.1 "[decisions]" _ _ (by decide) rfl
    (by
      intro d hd
      simp only [List.mem_cons, List.not_mem_nil, or_false] at hd
      rcases hd with h | h | h | h
      all_goals subst h
      all_goals rfl)

/-!
## C7: priority dispatch in TwitterAgentCore._execute_priority_tasks
(src/src/agents/core_agent.py lines 417-448)

sorted(decisions, key=..., reverse=True) computes the key of every element
first and then stable-sorts in descending key order; comparisons of the
(bool, confidence) key tuples can raise TypeError on non-numeric
confidences, which we model with a monadic comparison inside a stable
insertion sort (any stable sort agrees with it when no comparison fails).
The body of the loop mirrors the source, including the stale local
variable result that an unknown action type reads (a NameError when no
earlier iteration assigned it) and the except handler that re-reads
decision["action_type"] while formatting the error message.
-/

/-- Key computation of the sort: (x.get("urgency") == "high",
x.get("confidence", 0)). -/
def sortKeyE (d : PVal) : Except PyErr (Bool × PVal) := do
  let u ← pyGetE d "urgency" .null
  let c ← pyGetE d "confidence" (.num 0)
  pure (isStrEq u "high", c)

/-- Python comparison x >= y on confidence values: strings compare
lexicographically, numbers and bools numerically, anything else raises
TypeError (mixed container comparisons are not modelled; they cannot
occur after key extraction on decision dicts in this code). -/
def pyCompGe (x y : PVal) : Except PyErr Bool :=
  match x, y with
  | .str u, .str v => .ok (decide (v ≤ u))
  | x, y => do
    let qx ← pyToNum x
    let qy ← pyToNum y
    pure (decide (qy ≤ qx))

/-- Python tuple comparison a >= b on the sort keys: the bools decide
unless equal, in which case the confidences are compared. -/
def keyGeE (a b : Bool × PVal) : Except PyErr Bool :=
  if a.1 = b.1 then pyCompGe a.2 b.2 else .ok a.1

/-- Monadic stable insertion (descending): place x before the first y
whose key does not exceed its own. -/
def insertDescM {α : Type} (cmp : α → α → Except PyErr Bool) (x : α) :
    List α → Except PyErr (List α)
  | [] => .ok [x]
  | y :: t => do
    let b ← cmp x y
    if b then pure (x :: y :: t)
    else do
      let t2 ← insertDescM cmp x t
      pure (y :: t2)

/-- Monadic stable insertion sort (descending). -/
def sortDescM {α : Type} (cmp : α → α → Except PyErr Bool) :
    List α → Except PyErr (List α)
  | [] => .ok []
  | x :: t => do
    let s ← sortDescM cmp t
    insertDescM cmp x s

/-- Key computation for the whole list, in list order, as sorted does. -/
def computeKeys : List PVal → Except PyErr (List ((Bool × PVal) × PVal))
  | [] => .ok []
  | d :: t => do
    let k ← sortKeyE d
    let r ← computeKeys t
    pure ((k, d) :: r)

/-- max_concurrent_tasks from TwitterAgentCore.__init__. -/
def maxConcurrentTasks : Nat := 3

def contentActionResult (actionType ps : PVal) : String :=
  "Content action " ++ pvalFmt actionType ++ " executed with params: " ++
    pvalFmt ps

def engagementActionResult (ps : PVal) : String :=
  "Engagement action executed with params: " ++ pvalFmt ps

def analysisActionResult (ps : PVal) : String :=
  "Analysis action executed with params: " ++ pvalFmt ps

/-- The try block of one loop iteration: reads action_type and
parameters, dispatches on the action type; an unknown action type reads
the stale result variable (NameError when unassigned). -/
def dispatchOneTry (stale : Option String) (d : PVal) :
    Except PyErr (Option String × String) := do
  let at2 ← pyIndexE d "action_type"
  let ps ← pyGetE d "parameters" (.obj [])
  if isStrEq at2 "content_creation" || isStrEq at2 "content_curation" then
    let r := contentActionResult at2 ps
    pure (some r, pvalFmt at2 ++ ": " ++ r)
  else if isStrEq at2 "engagement" then
    let r := engagementActionResult ps
    pure (some r, pvalFmt at2 ++ ": " ++ r)
  else if isStrEq at2 "analysis" then
    let r := analysisActionResult ps
    pure (some r, pvalFmt at2 ++ ": " ++ r)
  else
    match stale with
    | none => .error .nameError
    | some r => pure (some r, pvalFmt at2 ++ ": " ++ r)

/-- The dispatch loop over the top slice of the sorted decisions; the
except handler formats an error message that itself re-reads
decision["action_type"] and therefore re-raises when that key is the
problem. -/
def dispatchLoop (stale : Option String) (acc : List String) :
    List PVal → Except PyErr (List String)
  | [] => .ok acc.reverse
  | d :: t =>
    match dispatchOneTry stale d with
    | .ok (st2, s) => dispatchLoop st2 (s :: acc) t
    | .error e =>
      match pyIndexE d "action_type" with
      | .error e2 => .error e2
      | .ok at2 =>
        dispatchLoop stale
          (("Failed to execute " ++ pvalFmt at2 ++ ": " ++ pyErrFmt e) :: acc) t

/-- Embedding of TwitterAgentCore._execute_priority_tasks. -/
def executePriorityTasks (decisions : List PVal) :
    Except PyErr (List String) := do
  let keyed ← computeKeys decisions
  let sortedKeyed ← sortDescM (fun a b => keyGeE a.1 b.1) keyed
  dispatchLoop none [] ((sortedKeyed.map (·.2)).take maxConcurrentTasks)

/-- Whether the decision declares high urgency (spec side, total). -/
def urgencyHigh (d : PVal) : Bool :=
  match d with
  | .obj fs => isStrEq ((fs.lookup "urgency").getD .null) "high"
  | _ => false

/-- The raw confidence value that key extraction reads. -/
def confPV (d : PVal) : PVal :=
  match d with
  | .obj fs => (fs.lookup "confidence").getD (.num 0)
  | _ => .num 0

/-- The sort key of the claim: urgency flag then numeric confidence. -/
def pureKey (d : PVal) : Bool × Rat :=
  (urgencyHigh d, (declaredConfidence d).getD 0)

/-- Descending lexicographic comparison of keys (bool False < True). -/
def keyGeB (a b : Bool × Rat) : Bool :=
  if a.1 = b.1 then decide (b.2 ≤ a.2) else a.1

/-- The claim's ordering on decisions. -/
def decOrd (d e : PVal) : Bool := keyGeB (pureKey d) (pureKey e)

/-- A decision whose key comparisons cannot raise: a dict whose
confidence entry (if any) is numeric. -/
def keyComparable (d : PVal) : Bool :=
  isObj d && (declaredConfidence d).isSome

/-- The dispatch order of the claim: stable descending sort by
(urgency == high, confidence), ties kept in original order, then the
first three. -/
def dispatchOrder (decisions : List PVal) : List PVal :=
  (insSortLe decOrd decisions).take maxConcurrentTasks

lemma keyGeB_total (a b : Bool × Rat) (h : keyGeB a b = false) :
    keyGeB b a = true := by
  by_cases hab : a.1 = b.1
  · rw [keyGeB, if_pos hab] at h
    rw [keyGeB, if_pos hab.symm]
    simp only [decide_eq_false_iff_not] at h
    exact decide_eq_true (le_of_not_le h)
  · rw [keyGeB, if_neg hab] at h
    rw [keyGeB, if_neg (Ne.symm hab)]
    cases ha : a.1 with
    | true => rw [ha] at h; exact absurd h (by simp)
    | false =>
      cases hb : b.1 with
      | true => rfl
      | false => exact absurd (hb ▸ ha ▸ rfl) hab

lemma keyGeB_trans (a b c : Bool × Rat) (h1 : keyGeB a b = true)
    (h2 : keyGeB b c = true) : keyGeB a c = true := by
  by_cases hab : a.1 = b.1
  · by_cases hbc : b.1 = c.1
    · rw [keyGeB, if_pos hab] at h1
      rw [keyGeB, if_pos hbc] at h2
      rw [keyGeB, if_pos (hab.trans hbc)]
      simp only [decide_eq_true_eq] at h1 h2 ⊢
      exact h2.trans h1
    · rw [keyGeB, if_neg hbc] at h2
      have hac : ¬ a.1 = c.1 := fun h => hbc (hab ▸ h)
      rw [keyGeB, if_neg hac]
      exact hab ▸ h2
  · rw [keyGeB, if_neg hab] at h1
    by_cases hbc : b.1 = c.1
    · have hac : ¬ a.1 = c.1 := fun h => hab (h.trans hbc.symm)
      rw [keyGeB, if_neg hac]
      exact h1
    · rw [keyGeB, if_neg hbc] at h2
      have hb : b.1 = true := h2
      exact absurd (h1.trans hb.symm) hab

lemma keyGeB_refl (a : Bool × Rat) : keyGeB a a = true := by
  simp [keyGeB]

lemma decOrd_total (d e : PVal) (h : decOrd d e = false) :
    decOrd e d = true := keyGeB_total _ _ h

lemma decOrd_trans (d e f : PVal) (h1 : decOrd d e = true)
    (h2 : decOrd e f = true) : decOrd d f = true :=
  keyGeB_trans _ _ _ h1 h2

/-- Key decoration of a decision as sorted(key=...) computes it. -/
def decorate (d : PVal) : (Bool × PVal) × PVal :=
  ((urgencyHigh d, confPV d), d)

lemma sortKeyE_of_obj (d : PVal) (h : isObj d = true) :
    sortKeyE d = .ok (urgencyHigh d, confPV d) := by
  cases d <;> simp_all [isObj, sortKeyE, pyGetE, urgencyHigh, confPV,
    Bind.bind, Except.bind, pure, Except.pure]

lemma pyToNum_confPV (d : PVal) (h : keyComparable d = true) :
    pyToNum (confPV d) = .ok ((declaredConfidence d).getD 0) := by
  cases d with
  | obj fs =>
    simp only [keyComparable, isObj, Bool.true_and] at h
    simp only [confPV, declaredConfidence]
    cases hl : fs.lookup "confidence" with
    | none => simp [pyToNum]
    | some v =>
      simp only [declaredConfidence, hl] at h
      cases v <;> simp_all [pyToNum]
  | null => simp [keyComparable, isObj] at h
  | bool b => simp [keyComparable, isObj] at h
  | num q => simp [keyComparable, isObj] at h
  | str s => simp [keyComparable, isObj] at h
  | datetime dt => simp [keyComparable, isObj] at h
  | arr l => simp [keyComparable, isObj] at h

lemma pyCompGe_of_num (x y : PVal) (qx qy : Rat)
    (hx : pyToNum x = .ok qx) (hy : pyToNum y = .ok qy) :
    pyCompGe x y = .ok (decide (qy ≤ qx)) := by
  cases x <;> cases y <;>
    simp_all [pyCompGe, pyToNum, Bind.bind, Except.bind, pure, Except.pure]

lemma keyGeE_decorate (d e : PVal) (hd : keyComparable d = true)
    (he : keyComparable e = true) :
    keyGeE (urgencyHigh d, confPV d) (urgencyHigh e, confPV e) =
      .ok (decOrd d e) := by
  by_cases h : urgencyHigh d = urgencyHigh e
  · rw [keyGeE, if_pos h]
    rw [pyCompGe_of_num _ _ _ _ (pyToNum_confPV d hd) (pyToNum_confPV e he)]
    simp [decOrd, keyGeB, pureKey, h]
  · rw [keyGeE, if_neg h]
    simp [decOrd, keyGeB, pureKey, h]

lemma computeKeys_map (l : List PVal)
    (h : ∀ d ∈ l, keyComparable d = true) :
    computeKeys l = .ok (l.map decorate) := by
  induction l with
  | nil => rfl
  | cons d t ih =>
    have hd := h d (List.mem_cons_self _ _)
    have hobj : isObj d = true := by
      simp only [keyComparable, Bool.and_eq_true] at hd
      exact hd.1
    rw [computeKeys, sortKeyE_of_obj d hobj,
      ih (fun e he => h e (List.mem_cons_of_mem _ he))]
    rfl

lemma insertDescM_decorate (x : PVal) (l : List PVal)
    (hx : keyComparable x = true) (hl : ∀ d ∈ l, keyComparable d = true) :
    insertDescM (fun a b => keyGeE a.1 b.1) (decorate x) (l.map decorate) =
      .ok ((insertLe decOrd x l).map decorate) := by
  induction l with
  | nil => rfl
  | cons y t ih =>
    have hy := hl y (List.mem_cons_self _ _)
    have hcmp : keyGeE (decorate x).1 (decorate y).1 = .ok (decOrd x y) :=
      keyGeE_decorate x y hx hy
    by_cases hxy : decOrd x y = true
    · simp only [List.map_cons, insertDescM, hcmp, Bind.bind, Except.bind,
        hxy, insertLe, if_pos hxy, pure, Except.pure, List.map_cons]
      rfl
    · have hxy' : decOrd x y = false := by simpa using hxy
      rw [insertLe, if_neg hxy]
      simp only [List.map_cons, insertDescM, hcmp, Bind.bind, Except.bind,
        hxy', ih (fun e he => hl e (List.mem_cons_of_mem _ he)),
        pure, Except.pure, List.map_cons]
      rfl

lemma sortDescM_decorate (l : List PVal)
    (h : ∀ d ∈ l, keyComparable d = true) :
    sortDescM (fun a b => keyGeE a.1 b.1) (l.map decorate) =
      .ok ((insSortLe decOrd l).map decorate) := by
  induction l with
  | nil => rfl
  | cons x t ih =>
    have hx := h x (List.mem_cons_self _ _)
    have ht : ∀ d ∈ t, keyComparable d = true :=
      fun e he => h e (List.mem_cons_of_mem _ he)
    have hsorted : ∀ d ∈ insSortLe decOrd t, keyComparable d = true :=
      fun e he => ht e ((mem_insSortLe decOrd e t).mp he)
    simp only [List.map_cons, sortDescM, ih ht, Bind.bind, Except.bind]
    exact insertDescM_decorate x _ hx hsorted

/--
C7 confirmed: on any list of filtered decisions (dicts whose confidence
is numeric or absent), _execute_priority_tasks dispatches exactly the
first max_concurrent_tasks = 3 elements of the stable descending sort on
the key (urgency == high, confidence): the dispatched slice has length
at most 3, the sorted list is ordered by that key, and entries of equal
key keep their original relative order; on the concrete example from the
claim (low/0.9, high/0.5, high/0.95) the dispatch order is high/0.95,
high/0.5, low/0.9.
-/
theorem c7_priority_dispatch :
    (∀ ds : List PVal, (∀ d ∈ ds, keyComparable d = true) →
        executePriorityTasks ds = dispatchLoop none [] (dispatchOrder ds) ∧
        (dispatchOrder ds).length ≤ maxConcurrentTasks ∧
        (insSortLe decOrd ds).Pairwise (fun a b => decOrd a b = true) ∧
        (∀ k : Bool × Rat,
          (insSortLe decOrd ds).filter (fun d => decide (pureKey d = k)) =
            ds.filter (fun d => decide (pureKey d = k)))) ∧
      executePriorityTasks
          [.obj [("urgency", .str "low"), ("confidence", .num (mkRat 9 10)),
            ("action_type", .str "content_creation")],
           .obj [("urgency", .str "high"), ("confidence", .num (mkRat 1 2)),
            ("action_type", .str "engagement")],
           .obj [("urgency", .str "high"), ("confidence", .num (mkRat 95 100)),
            ("action_type", .str "analysis")]] =
        .ok ["analysis: " ++ analysisActionResult (.obj []),
          "engagement: " ++ engagementActionResult (.obj []),
          "content_creation: " ++
            contentActionResult (.str "content_creation") (.obj [])] := by
  constructor
  · intro ds h
    refine ⟨?_, ?_, ?_, ?_⟩
    · rw [executePriorityTasks]
      simp only [computeKeys_map ds h, Bind.bind, Except.bind,
        sortDescM_decorate ds h, List.map_map]
      have hmap : ∀ l : List PVal, l.map ((·.2) ∘ decorate) = l := by
        intro l
        induction l with
        | nil => rfl
        | cons a t ih => simp [decorate, ih]
      rw [hmap]
      rfl
    · exact List.length_take_le _ _
    · exact insSortLe_sorted decOrd decOrd_total decOrd_trans ds
    · intro k
      refine insSortLe_filter decOrd _ ?_ ds
      intro x y hx hxy
      simp only [decide_eq_true_eq] at hx
      simp only [decide_eq_false_iff_not]
      intro hy
      have : decOrd x y = true := by
        show keyGeB (pureKey x) (pureKey y) = true
        rw [hx, hy]
        exact keyGeB_refl k
      rw [this] at hxy
      exact Bool.noConfusion hxy
  · rfl

/-- Closed witness for C7 at the concrete example decisions. -/
theorem c7_priority_dispatch_witness :
    executePriorityTasks
        [.obj [("urgency", .str "low"), ("confidence", .num (mkRat 9 10)),
          ("action_type", .str "content_creation")],
         .obj [("urgency", .str "high"), ("confidence", .num (mkRat 1 2)),
          ("action_type", .str "engagement")],
         .obj [("urgency", .str "high"), ("confidence", .num (mkRat 95 100)),
          ("action_type", .str "analysis")]] =
      dispatchLoop none []
        (dispatchOrder
          [.obj [("urgency", .str "low"), ("confidence", .num (mkRat 9 10)),
            ("action_type", .str "content_creation")],
           .obj [("urgency", .str "high"), ("confidence", .num (mkRat 1 2)),
            ("action_type", .str "engagement")],
           .obj [("urgency", .str "high"), ("confidence", .num (mkRat 95 100)),
            ("action_type", .str "analysis")]]) :=
  (c7_priority_dispatch.1 _ (by decide)).1

/-!
## C4: bounded handler memory in BaseSpecializedAgent.update_memory
(src/src/agents/specialized/base_agent.py lines 77-91)

self.memory is a Python dict (insertion ordered) keyed by
"task_{task.id}_{now.isoformat()}".  On overflow the source evicts
sorted(self.memory.keys())[: len - 100]: the lexicographically smallest
keys, which coincides with insertion order only when keys happen to be
inserted in increasing string order.
-/

/-- The fields of a specialized-agent task that update_memory reads. -/
structure HandlerTask where
  id : String
  type : String

/-- One stored memory record (content incidental to the claims). -/
structure MemRecord where
  taskType : String
  result : List (String × PVal)
  timestamp : String
  success : PVal

/-- A Python dict from key strings to records, in insertion order. -/
abbrev HandlerMem := List (String × MemRecord)

/-- dict[k] = v: replace in place when present, else append. -/
def dictSet (m : HandlerMem) (k : String) (v : MemRecord) : HandlerMem :=
  match m with
  | [] => [(k, v)]
  | (k2, v2) :: t => if k2 = k then (k, v) :: t else (k2, v2) :: dictSet t k v

/-- del dict[k]. -/
def delKey (m : HandlerMem) (k : String) : HandlerMem :=
  m.filter (fun kv => !(kv.1 == k))

/-- Lexicographic code-point comparison of character lists, as Python
compares strings. -/
def charListLe : List Char → List Char → Bool
  | [], _ => true
  | _ :: _, [] => false
  | a :: as, b :: bs =>
    if a.toNat < b.toNat then true
    else if b.toNat < a.toNat then false
    else charListLe as bs

/-- String comparison as Python sorted uses it (code-point order). -/
def strLe (a b : String) : Bool := charListLe a.toList b.toList

/-- The memory key built by update_memory. -/
def memKey (task : HandlerTask) (nowIso : String) : String :=
  "task_" ++ task.id ++ "_" ++ nowIso

/-- The record stored by update_memory; success is
result.get("success", False). -/
def mkMemRecord (task : HandlerTask) (result : List (String × PVal))
    (nowIso : String) : MemRecord :=
  { taskType := task.type, result := result, timestamp := nowIso,
    success := (result.lookup "success").getD (.bool false) }

/-- Embedding of BaseSpecializedAgent.update_memory: store the record,
then while more than 100 entries remain, delete the keys that are first
in ascending string sort order. -/
def updateMemory (m : HandlerMem) (task : HandlerTask)
    (result : List (String × PVal)) (nowIso : String) : HandlerMem :=
  let m2 := dictSet m (memKey task nowIso) (mkMemRecord task result nowIso)
  if 100 < m2.length then
    let oldest := (insSortLe strLe (m2.map (·.1))).take (m2.length - 100)
    oldest.foldl delKey m2
  else m2

/-- One update_memory call (the handler result dict and the call time). -/
structure MemCall where
  task : HandlerTask
  result : List (String × PVal)
  nowIso : String

/-- A sequence of update_memory calls applied to the initially empty
handler memory. -/
def runCalls (calls : List MemCall) : HandlerMem :=
  calls.foldl (fun m c => updateMemory m c.task c.result c.nowIso) []

lemma mem_keys_dictSet (m : HandlerMem) (k x : String) (v : MemRecord) :
    x ∈ (dictSet m k v).map (·.1) ↔ x = k ∨ x ∈ m.map (·.1) := by
  induction m with
  | nil => simp [dictSet]
  | cons kv t ih =>
    by_cases h : kv.1 = k
    · rw [show kv = (kv.1, kv.2) from rfl, dictSet, if_pos h]
      simp only [List.map_cons, List.mem_cons, h]
      tauto
    · rw [show kv = (kv.1, kv.2) from rfl, dictSet, if_neg h]
      simp only [List.map_cons, List.mem_cons, ih]
      tauto

lemma length_dictSet_le (m : HandlerMem) (k : String) (v : MemRecord) :
    (dictSet m k v).length ≤ m.length + 1 := by
  induction m with
  | nil => simp [dictSet]
  | cons kv t ih =>
    rw [show kv = (kv.1, kv.2) from rfl, dictSet]
    by_cases h : kv.1 = k
    · simp [h]
    · simp only [if_neg h, List.length_cons]
      exact Nat.succ_le_succ ih

lemma nodup_keys_dictSet (m : HandlerMem) (k : String) (v : MemRecord)
    (h : (m.map (·.1)).Nodup) : ((dictSet m k v).map (·.1)).Nodup := by
  induction m with
  | nil => simp [dictSet]
  | cons kv t ih =>
    simp only [List.map_cons, List.nodup_cons] at h
    rw [show kv = (kv.1, kv.2) from rfl, dictSet]
    by_cases hk : kv.1 = k
    · subst hk
      simpa using h
    · simp only [if_neg hk, List.map_cons, List.nodup_cons]
      refine ⟨?_, ih h.2⟩
      intro hmem
      rcases (mem_keys_dictSet t k kv.1 v).mp hmem with h1 | h1
      · exact hk h1
      · exact h.1 h1

lemma mem_keys_delKey (m : HandlerMem) (k x : String) :
    x ∈ (delKey m k).map (·.1) ↔ x ∈ m.map (·.1) ∧ x ≠ k := by
  induction m with
  | nil => simp [delKey]
  | cons kv t ih =>
    simp only [delKey, List.filter] at *
    by_cases h : kv.1 = k
    · simp [h, ih]
      tauto
    · have : (!(kv.1 == k)) = true := by simpa using h
      simp only [this, List.map_cons, List.mem_cons, ih]
      constructor
      · rintro (h1 | h1)
        · exact ⟨Or.inl h1, h1 ▸ h⟩
        · exact ⟨Or.inr h1.1, h1.2⟩
      · rintro ⟨h1 | h1, h2⟩
        · exact Or.inl h1
        · exact Or.inr ⟨h1, h2⟩

lemma delKey_of_not_mem (m : HandlerMem) (k : String)
    (h : k ∉ m.map (·.1)) : delKey m k = m := by
  induction m with
  | nil => rfl
  | cons kv t ih =>
    simp only [List.map_cons, List.mem_cons, not_or] at h
    have : (!(kv.1 == k)) = true := by
      simpa using fun he => h.1 he.symm
    simp only [delKey, List.filter, this]
    rw [show (List.filter (fun kv => !(kv.1 == k)) t) = delKey t k from rfl,
      ih h.2]

lemma length_delKey (m : HandlerMem) (k : String)
    (hnd : (m.map (·.1)).Nodup) (hmem : k ∈ m.map (·.1)) :
    (delKey m k).length = m.length - 1 := by
  induction m with
  | nil => simp at hmem
  | cons kv t ih =>
    simp only [List.map_cons, List.nodup_cons] at hnd
    simp only [List.map_cons, List.mem_cons] at hmem
    by_cases h : kv.1 = k
    · have hnot : k ∉ t.map (·.1) := h ▸ hnd.1
      have : (!(kv.1 == k)) = false := by simpa using h
      simp only [delKey, List.filter, this]
      rw [show (List.filter (fun kv => !(kv.1 == k)) t) = delKey t k from rfl,
        delKey_of_not_mem t k hnot]
      simp
    · rcases hmem with hmem | hmem
      · exact absurd hmem.symm h
      · have : (!(kv.1 == k)) = true := by simpa using h
        simp only [delKey, List.filter, this, List.length_cons]
        rw [show (List.filter (fun kv => !(kv.1 == k)) t) = delKey t k
          from rfl, ih hnd.2 hmem]
        have hpos : 0 < t.length := List.length_pos.mpr (by
          rintro rfl
          simp at hmem)
        omega

lemma nodup_keys_delKey (m : HandlerMem) (k : String)
    (hnd : (m.map (·.1)).Nodup) : ((delKey m k).map (·.1)).Nodup := by
  have hsub : List.Sublist ((delKey m k).map (·.1)) (m.map (·.1)) :=
    (List.filter_sublist m).map _
  exact hnd.sublist hsub

lemma mem_keys_foldl_delKey (ks : List String) (m : HandlerMem)
    (x : String) :
    x ∈ ((ks.foldl delKey m).map (·.1)) ↔ x ∈ m.map (·.1) ∧ x ∉ ks := by
  induction ks generalizing m with
  | nil => simp
  | cons k kt ih =>
    simp only [List.foldl_cons, ih, mem_keys_delKey, List.mem_cons]
    tauto

lemma nodup_keys_foldl_delKey (ks : List String) (m : HandlerMem)
    (hnd : (m.map (·.1)).Nodup) :
    ((ks.foldl delKey m).map (·.1)).Nodup := by
  induction ks generalizing m with
  | nil => exact hnd
  | cons k kt ih => exact ih _ (nodup_keys_delKey m k hnd)

lemma length_foldl_delKey (ks : List String) (m : HandlerMem)
    (hnd : (m.map (·.1)).Nodup) (hks : ks.Nodup)
    (hsub : ∀ k ∈ ks, k ∈ m.map (·.1)) :
    (ks.foldl delKey m).length = m.length - ks.length := by
  induction ks generalizing m with
  | nil => simp
  | cons k kt ih =>
    simp only [List.nodup_cons] at hks
    have hkm : k ∈ m.map (·.1) := hsub k (List.mem_cons_self _ _)
    have hrest : ∀ k2 ∈ kt, k2 ∈ (delKey m k).map (·.1) := by
      intro k2 hk2
      refine (mem_keys_delKey m k k2).mpr ⟨hsub k2 (List.mem_cons_of_mem _ hk2), ?_⟩
      intro he
      exact hks.1 (he ▸ hk2)
    rw [List.foldl_cons, ih (delKey m k) (nodup_keys_delKey m k hnd)
      hks.2 hrest, length_delKey m k hnd hkm]
    simp only [List.length_cons]
    omega

lemma insertLe_perm {α : Type} (le : α → α → Bool) (x : α) (l : List α) :
    List.Perm (insertLe le x l) (x :: l) := by
  induction l with
  | nil => rfl
  | cons y t ih =>
    by_cases h : le x y = true
    · rw [insertLe, if_pos h]
    · rw [insertLe, if_neg h]
      exact (ih.cons y).trans (List.Perm.swap x y t)

lemma insSortLe_perm {α : Type} (le : α → α → Bool) (l : List α) :
    List.Perm (insSortLe le l) l := by
  induction l with
  | nil => rfl
  | cons x t ih => exact (insertLe_perm le x _).trans (ih.cons x)

lemma charListLe_total (a b : List Char) (h : charListLe a b = false) :
    charListLe b a = true := by
  induction a generalizing b with
  | nil => simp [charListLe] at h
  | cons x xs ih =>
    cases b with
    | nil => rfl
    | cons y ys =>
      rw [charListLe] at h
      rw [charListLe]
      by_cases h1 : x.toNat < y.toNat
      · rw [if_pos h1] at h
        exact Bool.noConfusion h
      · rw [if_neg h1] at h
        by_cases h2 : y.toNat < x.toNat
        · rw [if_pos h2]
        · rw [if_neg h2] at h
          rw [if_neg h2, if_neg h1]
          exact ih ys h

lemma charListLe_trans (a b c : List Char) (h1 : charListLe a b = true)
    (h2 : charListLe b c = true) : charListLe a c = true := by
  induction a generalizing b c with
  | nil => rfl
  | cons x xs ih =>
    cases b with
    | nil => exact Bool.noConfusion h1
    | cons y ys =>
      cases c with
      | nil => exact Bool.noConfusion h2
      | cons z zs =>
        rw [charListLe] at h1 h2 ⊢
        by_cases hxy : x.toNat < y.toNat
        · by_cases hyz : y.toNat < z.toNat
          · rw [if_pos (by omega : x.toNat < z.toNat)]
          · rw [if_neg hyz] at h2
            by_cases hzy : z.toNat < y.toNat
            · rw [if_pos hzy] at h2
              exact Bool.noConfusion h2
            · rw [if_pos (by omega : x.toNat < z.toNat)]
        · rw [if_neg hxy] at h1
          by_cases hyx : y.toNat < x.toNat
          · rw [if_pos hyx] at h1
            exact Bool.noConfusion h1
          · rw [if_neg hyx] at h1
            by_cases hyz : y.toNat < z.toNat
            · rw [if_pos (by omega : x.toNat < z.toNat)]
            · rw [if_neg hyz] at h2
              by_cases hzy : z.toNat < y.toNat
              · rw [if_pos hzy] at h2
                exact Bool.noConfusion h2
              · rw [if_neg hzy] at h2
                rw [if_neg (by omega : ¬ x.toNat < z.toNat),
                  if_neg (by omega : ¬ z.toNat < x.toNat)]
                exact ih ys zs h1 h2

lemma strLe_total (a b : String) (h : strLe a b = false) :
    strLe b a = true := charListLe_total _ _ h

lemma strLe_trans (a b c : String) (h1 : strLe a b = true)
    (h2 : strLe b c = true) : strLe a c = true :=
  charListLe_trans _ _ _ h1 h2

lemma updateMemory_card (m : HandlerMem) (task : HandlerTask)
    (result : List (String × PVal)) (nowIso : String)
    (hnd : (m.map (·.1)).Nodup) (_hlen : m.length ≤ 100) :
    ((updateMemory m task result nowIso).map (·.1)).Nodup ∧
      (updateMemory m task result nowIso).length ≤ 100 := by
  simp only [updateMemory]
  set k := memKey task nowIso
  set v := mkMemRecord task result nowIso
  set m2 := dictSet m k v with hm2
  have hnd2 : (m2.map (·.1)).Nodup := nodup_keys_dictSet m k v hnd
  have hlen2 : m2.length ≤ m.length + 1 := length_dictSet_le m k v
  by_cases hov : 100 < m2.length
  · rw [if_pos hov]
    set sorted := insSortLe strLe (m2.map (·.1)) with hs
    have hperm := insSortLe_perm strLe (m2.map (·.1))
    have hsortNodup : sorted.Nodup := (hperm.nodup_iff).mpr hnd2
    set n := m2.length - 100 with hn
    have hslen : sorted.length = m2.length := by
      rw [hperm.length_eq, List.length_map]
    have htakeNodup : (sorted.take n).Nodup :=
      hsortNodup.sublist (List.take_sublist n sorted)
    have htakeSub : ∀ key ∈ sorted.take n, key ∈ m2.map (·.1) := by
      intro key hk
      exact (mem_insSortLe strLe key _).mp (List.mem_of_mem_take hk)
    have htakeLen : (sorted.take n).length = n := by
      rw [List.length_take]
      omega
    have hfinal := length_foldl_delKey (sorted.take n) m2 hnd2
      htakeNodup htakeSub
    refine ⟨nodup_keys_foldl_delKey _ _ hnd2, ?_⟩
    rw [hfinal, htakeLen]
    omega
  · rw [if_neg hov]
    exact ⟨hnd2, by omega⟩

/--
C4 amended: starting from the empty handler memory, after any sequence
of update_memory calls the memory never holds more than 100 records; and
whenever records are evicted on overflow, it is the records with the
lexicographically smallest keys (task id plus timestamp, in string
order) that are removed first, which agrees with insertion order only
when keys happen to be inserted in increasing string order (the original
FIFO claim fails, see the counterexample).
-/
theorem c4_memory_cap_and_lex_eviction :
    (∀ calls : List MemCall, (runCalls calls).length ≤ 100) ∧
    (∀ (m : HandlerMem) (task : HandlerTask)
        (result : List (String × PVal)) (nowIso k1 k2 : String),
        k1 ∈ (dictSet m (memKey task nowIso)
          (mkMemRecord task result nowIso)).map (·.1) →
        k1 ∉ (updateMemory m task result nowIso).map (·.1) →
        k2 ∈ (updateMemory m task result nowIso).map (·.1) →
        strLe k1 k2 = true) := by
  constructor
  · have inv : ∀ (calls : List MemCall) (m : HandlerMem),
        (m.map (·.1)).Nodup → m.length ≤ 100 →
        ((calls.foldl (fun m c => updateMemory m c.task c.result c.nowIso)
            m).map (·.1)).Nodup ∧
          (calls.foldl (fun m c => updateMemory m c.task c.result c.nowIso)
            m).length ≤ 100 := by
      intro calls
      induction calls with
      | nil => intro m h1 h2; exact ⟨h1, h2⟩
      | cons c ct ih =>
        intro m h1 h2
        have hstep := updateMemory_card m c.task c.result c.nowIso h1 h2
        exact ih _ hstep.1 hstep.2
    intro calls
    exact (inv calls [] (by simp) (by simp)).2
  · intro m task result nowIso k1 k2 h1 h2 h3
    simp only [updateMemory] at h2 h3
    set m2 := dictSet m (memKey task nowIso)
      (mkMemRecord task result nowIso) with hm2
    by_cases hov : 100 < m2.length
    · rw [if_pos hov] at h2 h3
      set sorted := insSortLe strLe (m2.map (·.1)) with hs
      set n := m2.length - 100 with hn
      have hk1old : k1 ∈ sorted.take n := by
        by_contra hcon
        exact h2 ((mem_keys_foldl_delKey _ m2 k1).mpr ⟨h1, hcon⟩)
      have hk2 := (mem_keys_foldl_delKey _ m2 k2).mp h3
      have hk2sorted : k2 ∈ sorted :=
        (mem_insSortLe strLe k2 _).mpr hk2.1
      have hk2drop : k2 ∈ sorted.drop n := by
        have hsplit : sorted.take n ++ sorted.drop n = sorted :=
          List.take_append_drop n sorted
        rw [← hsplit] at hk2sorted
        rcases List.mem_append.mp hk2sorted with hc | hc
        · exact absurd hc hk2.2
        · exact hc
      have hpw : sorted.Pairwise (strLe · · = true) :=
        insSortLe_sorted strLe strLe_total strLe_trans _
      have hsplit : sorted.take n ++ sorted.drop n = sorted :=
        List.take_append_drop n sorted
      rw [← hsplit] at hpw
      exact (List.pairwise_append.mp hpw).2.2 k1 hk1old k2 hk2drop
    · rw [if_neg hov] at h2
      exact absurd h1 h2

/-- Two-digit decimal rendering used to build distinct timestamps. -/
def c4Pad (i : Nat) : String :=
  (if i < 10 then "0" else "") ++ toString i

/-- One hundred calls for a task with id "b", then one for id "a". -/
def c4Calls : List MemCall :=
  ((List.range 100).map (fun i =>
    { task := { id := "b", type := "t" }, result := [],
      nowIso := "n" ++ c4Pad i : MemCall })) ++
  [{ task := { id := "a", type := "t" }, result := [], nowIso := "x" }]

/-- The first hundred of those calls. -/
def c4Calls100 : List MemCall :=
  (List.range 100).map (fun i =>
    { task := { id := "b", type := "t" }, result := [],
      nowIso := "n" ++ c4Pad i : MemCall })

set_option maxRecDepth 100000 in
/--
C4 counterexample: after one hundred updates for task id "b" followed by
one update for task id "a", the memory is full and the very record
inserted last (key "task_a_x", smallest in string order) is the one that
was evicted, while the oldest record (key "task_b_n00") is still
present — eviction is not FIFO by insertion time.
-/
theorem c4_eviction_not_fifo :
    ((runCalls c4Calls).map (·.1)).contains "task_a_x" = false ∧
      ((runCalls c4Calls).map (·.1)).contains "task_b_n00" = true ∧
      (runCalls c4Calls).length = 100 := by
  decide

set_option maxRecDepth 100000 in
/-- Closed witness for the amended C4 theorem: the cap after the
concrete call sequence, and the eviction inequality at the concrete
overflow step. -/
theorem c4_memory_cap_and_lex_eviction_witness :
    (runCalls c4Calls).length ≤ 100 ∧ strLe "task_a_x" "task_b_n00" = true :=
  ⟨c4_memory_cap_and_lex_eviction.1 c4Calls,
    c4_memory_cap_and_lex_eviction.2 (runCalls c4Calls100)
      { id := "a", type := "t" } [] "x" "task_a_x" "task_b_n00"
      (by decide) (by decide) (by decide)⟩

/-!
## Core agent data model (src/src/agents/core_agent.py lines 24-99)

These are the pydantic models of core_agent.py; the parallel, different
models of src/src/agents/models.py appear further below for the memory
manager.  Dict fields become association lists, datetimes PyDateTime.
-/

inductive AgentRole where
  | strategist
  | content_curator
  | engagement_manager
  | performance_analyst
  | content_creator
  deriving DecidableEq, Repr

inductive TaskPriority where
  | critical
  | high
  | medium
  | low
  deriving DecidableEq, Repr

inductive TaskStatus where
  | pending
  | in_progress
  | completed
  | failed
  | cancelled
  deriving DecidableEq, Repr

/-- The fields of AccountConfig (src/src/data_models.py collaborator)
that the agent core reads. -/
structure AccountConfig where
  account_id : String
  deriving DecidableEq, Repr

/-- AgentGoal of core_agent.py; target metrics are numeric by type. -/
structure CoreAgentGoal where
  id : String
  description : String
  target_metrics : List (String × Rat)
  deadline : Option PyDateTime := none
  priority : TaskPriority := .medium
  is_active : Bool := true
  progress : Rat := 0
  created_at : PyDateTime

/-- AgentTask of core_agent.py. -/
structure CoreAgentTask where
  id : String
  goal_id : Option String := none
  role : AgentRole
  description : String
  parameters : List (String × PVal) := []
  priority : TaskPriority := .medium
  status : TaskStatus := .pending
  scheduled_time : Option PyDateTime := none
  deadline : Option PyDateTime := none
  retry_count : Int := 0
  max_retries : Int := 3
  result : Option (List (String × PVal)) := none
  error_message : Option String := none
  created_at : PyDateTime
  updated_at : PyDateTime

/-- AgentMemory of core_agent.py. -/
structure CoreAgentMemory where
  action_history : List PVal := []
  successful_strategies : List PVal := []
  failed_strategies : List PVal := []
  performance_metrics : List (String × List Rat) := []
  learned_patterns : List (String × PVal) := []
  last_updated : PyDateTime

/-- AgentContext of core_agent.py: note that it has no completed-task
collection. -/
structure CoreAgentContext where
  account_config : AccountConfig
  current_goals : List CoreAgentGoal := []
  active_tasks : List CoreAgentTask := []
  memory : CoreAgentMemory
  environment_state : List (String × PVal) := []
  last_action_time : Option PyDateTime := none

/-!
## C2: TwitterAgentCore.execute_cycle
(src/src/agents/core_agent.py lines 254-292)

The two LLM calls of a cycle (situation analysis, decision making) are
modelled by their outcomes respAnalysis and respDecision.  The cycle
results dict is an association list in insertion order.
-/

/-- Values stored in the cycle results dict. -/
inductive CycleVal where
  | nat (n : Nat)
  | strs (l : List String)

/-- dict[k] = v on a generic association list. -/
def setKey {β : Type} (m : List (String × β)) (k : String) (v : β) :
    List (String × β) :=
  match m with
  | [] => [(k, v)]
  | (k2, v2) :: t => if k2 = k then (k, v) :: t else (k2, v2) :: setKey t k v

/-- Embedding of TwitterAgentCore._analyze_situation
(src/src/agents/core_agent.py lines 294-352): falls back to an error
dict on LLM failure, empty response, or undecodable JSON. -/
def analyzeSituation (resp : Except PyErr String)
    (parse : String → Option PVal) : PVal :=
  match resp with
  | .error e => .obj [("error", .str (pyErrFmt e))]
  | .ok r =>
    let cleaned := cleanStr r
    if cleaned = "" then .obj [("error", .str "Empty response from LLM")]
    else
      match parse cleaned with
      | none => .obj [("error", .str "JSON parsing error")]
      | some v => v

/-- Embedding of TwitterAgentCore._learn_from_cycle
(src/src/agents/core_agent.py lines 465-491): append a cycle record,
update the execution_rate series when tasks ran, and cap the action
history at the last 100 entries. -/
def learnFromCycle (ctx : CoreAgentContext)
    (results : List (String × CycleVal)) (now : PyDateTime) :
    CoreAgentContext :=
  let tasksExecuted :=
    match results.lookup "tasks_executed" with
    | some (.nat n) => n
    | _ => 0
  let record : PVal := .obj [("timestamp", .str now.iso),
    ("active_goals", .num ctx.current_goals.length),
    ("active_tasks", .num ctx.active_tasks.length)]
  let hist := ctx.memory.action_history ++ [record]
  let metrics :=
    if 0 < tasksExecuted then
      let series := (ctx.memory.performance_metrics.lookup
        "execution_rate").getD []
      setKey ctx.memory.performance_metrics "execution_rate"
        (series ++ [(tasksExecuted : Rat)])
    else ctx.memory.performance_metrics
  let hist2 := if 100 < hist.length then hist.drop (hist.length - 100)
    else hist
  { ctx with
    memory := { ctx.memory with
      action_history := hist2
      performance_metrics := metrics
      last_updated := now } }

/-- The error string appended when the cycle body raises. -/
def cycleErrMsg (accountId : String) (e : PyErr) : String :=
  "Error in agent cycle for " ++ accountId ++ ": " ++ pyErrFmt e

/--
The body of TwitterAgentCore.execute_cycle for a registered context: the
try block runs analysis, decisions, priority execution and learning; the
except handler appends the error to the errors list of the results dict,
so the body always completes with a results dict and a context.
-/
def executeCycleBody (accountId : String) (ctx : CoreAgentContext)
    (respAnalysis respDecision : Except PyErr String)
    (parse : String → Option PVal) (now : PyDateTime) :
    List (String × CycleVal) × CoreAgentContext :=
  let results0 : List (String × CycleVal) :=
    [("tasks_executed", .nat 0), ("decisions_made", .nat 0),
      ("actions_taken", .strs []), ("errors", .strs [])]
  -- the analysis result only feeds the decision prompt, whose outcome
  -- is the respDecision parameter
  let _analysis := analyzeSituation respAnalysis parse
  let decisions := makeDecisions respDecision parse
  let results1 := setKey results0 "decisions_made" (.nat decisions.length)
  match executePriorityTasks decisions with
  | .error e =>
    let errs :=
      match results1.lookup "errors" with
      | some (.strs l) => l
      | _ => []
    (setKey results1 "errors" (.strs (errs ++ [cycleErrMsg accountId e])),
      ctx)
  | .ok executed =>
    let results2 := setKey results1 "tasks_executed" (.nat executed.length)
    let results3 := setKey results2 "actions_taken" (.strs executed)
    let ctx2 := learnFromCycle ctx results3 now
    (results3, { ctx2 with last_action_time := some now })

/--
Embedding of TwitterAgentCore.execute_cycle: raises ValueError when the
account has no registered context; otherwise the try/except body always
completes.
-/
def executeCycle (contexts : String → Option CoreAgentContext)
    (accountId : String) (respAnalysis respDecision : Except PyErr String)
    (parse : String → Option PVal) (now : PyDateTime) :
    Except PyErr (List (String × CycleVal) × CoreAgentContext) :=
  match contexts accountId with
  | none => .error (.valueError ("No context found for account: " ++ accountId))
  | some ctx =>
    .ok (executeCycleBody accountId ctx respAnalysis respDecision parse now)

lemma executeCycleBody_has_errors (accountId : String)
    (ctx : CoreAgentContext) (respAnalysis respDecision : Except PyErr String)
    (parse : String → Option PVal) (now : PyDateTime) :
    ∃ es, ((executeCycleBody accountId ctx respAnalysis respDecision parse
      now).1).lookup "errors" = some (.strs es) := by
  simp only [executeCycleBody]
  cases hexec : executePriorityTasks (makeDecisions respDecision parse) with
  | error e => exact ⟨[cycleErrMsg accountId e], rfl⟩
  | ok executed => exact ⟨[], rfl⟩

/--
C2 amended: for every registered account id and every behaviour of the
LLM collaborator and of json.loads, execute_cycle returns a results
mapping containing an errors list and does not raise; for an account id
with no registered context it raises ValueError instead (see the
counterexample), so the claim as stated fails exactly there.
-/
theorem c2_cycle_contains_errors (contexts : String → Option CoreAgentContext)
    (accountId : String) (ctx : CoreAgentContext)
    (respAnalysis respDecision : Except PyErr String)
    (parse : String → Option PVal) (now : PyDateTime)
    (hreg : contexts accountId = some ctx) :
    ∃ r ctx2, executeCycle contexts accountId respAnalysis respDecision
        parse now = .ok (r, ctx2) ∧
      ∃ es, r.lookup "errors" = some (.strs es) := by
  refine ⟨(executeCycleBody accountId ctx respAnalysis respDecision parse
    now).1, (executeCycleBody accountId ctx respAnalysis respDecision parse
    now).2, ?_, ?_⟩
  · rw [executeCycle, hreg]
  · exact executeCycleBody_has_errors accountId ctx respAnalysis
      respDecision parse now

/-- Closed witness for the amended C2 theorem at a one-account registry
with failing LLM calls. -/
theorem c2_cycle_contains_errors_witness :
    ∃ r ctx2,
      executeCycle
          (fun a => if a = "acct" then
            some { account_config := { account_id := "acct" }
                   memory := { last_updated := ⟨0⟩ } } else none)
          "acct" (.error .typeError) (.error .typeError) (fun _ => none)
          ⟨1⟩ = .ok (r, ctx2) ∧
      ∃ es, r.lookup "errors" = some (.strs es) :=
  c2_cycle_contains_errors _ "acct"
    { account_config := { account_id := "acct" }
      memory := { last_updated := ⟨0⟩ } }
    (.error .typeError) (.error .typeError) (fun _ => none) ⟨1⟩ rfl

/--
C2 counterexample: for an account id with no registered context,
execute_cycle raises ValueError instead of returning a results mapping,
refuting the claim for unregistered ids.
-/
theorem c2_cycle_raises_when_unregistered :
    executeCycle (fun _ => none) "ghost" (.ok "") (.ok "")
        (fun _ => none) ⟨0⟩ =
      .error (.valueError "No context found for account: ghost") := by
  rfl

/-!
## C6: TwitterAgentCore.set_goal and _plan_for_goal
(src/src/agents/core_agent.py lines 161-252)

set_goal constructs the goal (pydantic validation of the metrics dict
happens here), raises ValueError for an unregistered account, appends
the goal, and triggers planning.  _plan_for_goal consumes one LLM call;
a decode failure aborts planning with no tasks; any exception while
building a task aborts the loop keeping the tasks appended so far.
datetime.fromisoformat is the isoP oracle.
-/

/-- Python truthiness of a value. -/
def pyTruthy : PVal → Bool
  | .null => false
  | .bool b => b
  | .num q => !(q == 0)
  | .str s => !(s == "")
  | .datetime _ => true
  | .arr l => !l.isEmpty
  | .obj fs => !fs.isEmpty

/-- AgentRole(value): the five valid role strings. -/
def roleOfString : String → Option AgentRole
  | "strategist" => some .strategist
  | "content_curator" => some .content_curator
  | "engagement_manager" => some .engagement_manager
  | "performance_analyst" => some .performance_analyst
  | "content_creator" => some .content_creator
  | _ => none

/-- TaskPriority(value): the four valid priority strings. -/
def priorityOfString : String → Option TaskPriority
  | "critical" => some .critical
  | "high" => some .high
  | "medium" => some .medium
  | "low" => some .low
  | _ => none

/-- pydantic validation of target_metrics: Dict[str, Union[int, float]]. -/
def metricsOfPVal : PVal → Except PyErr (List (String × Rat))
  | .obj fs =>
    let rec go : List (String × PVal) → Except PyErr (List (String × Rat))
      | [] => .ok []
      | (k, .num q) :: t => do
        let r ← go t
        pure ((k, q) :: r)
      | _ :: _ => .error .validationError
    go fs
  | _ => .error .validationError

/-- Building one AgentTask from a decoded task entry, mirroring the
constructor-argument evaluation order of the source; any failure is the
exception that aborts the planning loop. -/
def buildTask (accountId : String) (goal : CoreAgentGoal) (now : PyDateTime)
    (nActive : Nat) (td : PVal)
    (isoP : String → Except PyErr PyDateTime) :
    Except PyErr CoreAgentTask := do
  let roleV ← pyIndexE td "role"
  let role ← match roleV with
    | .str s =>
      match roleOfString s with
      | some r => pure r
      | none => Except.error (.valueError "invalid role")
    | _ => Except.error (.valueError "invalid role")
  let descV ← pyIndexE td "description"
  let desc ← match descV with
    | .str s => pure s
    | _ => Except.error .validationError
  let prioV ← pyIndexE td "priority"
  let prio ← match prioV with
    | .str s =>
      match priorityOfString s with
      | some p => pure p
      | none => Except.error (.valueError "invalid priority")
    | _ => Except.error (.valueError "invalid priority")
  let paramsV ← pyGetE td "parameters" (.obj [])
  let params ← match paramsV with
    | .obj fs => pure fs
    | _ => Except.error .validationError
  let schedV ← pyGetE td "scheduled_time" .null
  let sched ← if pyTruthy schedV then
      match schedV with
      | .str s => do
        let d ← isoP s
        pure (some d)
      | _ => Except.error .typeError
    else pure (none : Option PyDateTime)
  let tid := accountId ++ "_" ++ toString now.stamp ++ "_" ++
    toString nActive
  pure {
    id := tid
    goal_id := some goal.id
    role := role
    description := desc
    priority := prio
    parameters := params
    scheduled_time := sched
    created_at := now
    updated_at := now }

/-- The task-creation loop of _plan_for_goal: append tasks until the
first exception, which the surrounding except swallows. -/
def planForGoalTasks (accountId : String) (goal : CoreAgentGoal)
    (now : PyDateTime) (isoP : String → Except PyErr PyDateTime) :
    List PVal → List CoreAgentTask → List CoreAgentTask
  | [], acc => acc
  | td :: rest, acc =>
    match buildTask accountId goal now acc.length td isoP with
    | .error _ => acc
    | .ok t => planForGoalTasks accountId goal now isoP rest (acc ++ [t])

/-- Embedding of TwitterAgentCore._plan_for_goal: one LLM call, clean,
decode; a decode failure returns with no tasks created; otherwise the
creation loop runs.  Never raises. -/
def planForGoal (accountId : String) (ctx : CoreAgentContext)
    (goal : CoreAgentGoal) (respPlan : Except PyErr String)
    (parse : String → Option PVal)
    (isoP : String → Except PyErr PyDateTime) (now : PyDateTime) :
    CoreAgentContext :=
  match respPlan with
  | .error _ => ctx
  | .ok r =>
    match parse (cleanStr r) with
    | none => ctx
    | some v =>
      match pyIter v with
      | .error _ => ctx
      | .ok tds =>
        { ctx with active_tasks :=
            planForGoalTasks accountId goal now isoP tds ctx.active_tasks }

/-- Embedding of TwitterAgentCore.set_goal: construct the goal (metrics
validated by pydantic here), raise ValueError when the account is not
registered, append the goal and plan for it. -/
def setGoal (contexts : String → Option CoreAgentContext)
    (accountId goalDescription : String) (targetMetrics : PVal)
    (deadline : Option PyDateTime) (respPlan : Except PyErr String)
    (parse : String → Option PVal)
    (isoP : String → Except PyErr PyDateTime) (now : PyDateTime) :
    Except PyErr (CoreAgentGoal × CoreAgentContext) :=
  match metricsOfPVal targetMetrics with
  | .error e => .error e
  | .ok ms =>
    let gid := accountId ++ "_" ++ toString now.stamp
    let goal : CoreAgentGoal := {
      id := gid
      description := goalDescription
      target_metrics := ms
      deadline := deadline
      created_at := now }
    match contexts accountId with
    | none =>
      .error (.valueError ("No context found for account: " ++ accountId))
    | some ctx =>
      let ctx1 := { ctx with current_goals := ctx.current_goals ++ [goal] }
      .ok (goal, planForGoal accountId ctx1 goal respPlan parse isoP now)

/--
C6 confirmed: for a registered account, when the planning response fails
to decode as JSON, set_goal returns normally, the new goal is appended
to the current goals, and the active-task list is unchanged.
-/
theorem c6_plan_decode_failure_keeps_goal
    (contexts : String → Option CoreAgentContext)
    (accountId goalDescription : String) (targetMetrics : PVal)
    (ms : List (String × Rat)) (ctx : CoreAgentContext)
    (deadline : Option PyDateTime) (respText : String)
    (parse : String → Option PVal)
    (isoP : String → Except PyErr PyDateTime) (now : PyDateTime)
    (hreg : contexts accountId = some ctx)
    (hm : metricsOfPVal targetMetrics = .ok ms)
    (hdecode : parse (cleanStr respText) = none) :
    ∃ goal ctx2,
      setGoal contexts accountId goalDescription targetMetrics deadline
        (.ok respText) parse isoP now = .ok (goal, ctx2) ∧
      ctx2.current_goals = ctx.current_goals ++ [goal] ∧
      ctx2.active_tasks = ctx.active_tasks := by
  refine ⟨{ id := accountId ++ "_" ++ toString now.stamp
            description := goalDescription
            target_metrics := ms
            deadline := deadline
            created_at := now },
    { ctx with current_goals := ctx.current_goals ++
        [{ id := accountId ++ "_" ++ toString now.stamp
           description := goalDescription
           target_metrics := ms
           deadline := deadline
           created_at := now }] }, ?_, rfl, rfl⟩
  simp only [setGoal, hm, hreg, planForGoal, hdecode]

/-- Closed witness for C6 at a concrete registered account with a
failing decoder. -/
theorem c6_plan_decode_failure_keeps_goal_witness :
    ∃ goal ctx2,
      setGoal
          (fun a => if a = "acct" then
            some { account_config := { account_id := "acct" }
                   memory := { last_updated := ⟨0⟩ } } else none)
          "acct" "grow" (.obj [("followers", .num 500)]) none
          (.ok "not json") (fun _ => none) (fun _ => .error .typeError)
          ⟨7⟩ = .ok (goal, ctx2) ∧
      ctx2.current_goals =
        ({ account_config := { account_id := "acct" }
           memory := { last_updated := ⟨0⟩ } } :
            CoreAgentContext).current_goals ++ [goal] ∧
      ctx2.active_tasks =
        ({ account_config := { account_id := "acct" }
           memory := { last_updated := ⟨0⟩ } } :
            CoreAgentContext).active_tasks :=
  c6_plan_decode_failure_keeps_goal _ "acct" "grow"
    (.obj [("followers", .num 500)]) [("followers", 500)]
    { account_config := { account_id := "acct" }
      memory := { last_updated := ⟨0⟩ } }
    none "not json" (fun _ => none) (fun _ => .error .typeError) ⟨7⟩
    rfl rfl rfl

/-!
## C5: AgentOrchestrator.add_goal_from_natural_language
(src/src/agents/orchestrator.py lines 139-241)

The orchestrator has its own cleaner (lines 63-77) that removes every
occurrence of the fence markers, unlike the core cleaner.  The goal
parse LLM call is respParse; the planning call inside set_goal is
respPlan (when a failed first set_goal attempt falls back, the fallback
planning call receives the same respPlan — the planning outcome never
affects the returned goal).  The pending_goals bookkeeping of the
success path touches no goal or context state and is not modelled.
-/

/-- str.replace(pat, ""): remove every occurrence, left to right.  The
fuel starts at the list length, which bounds the number of steps. -/
def replaceAllAux (pat : List Char) : Nat → List Char → List Char
  | _, [] => []
  | 0, l => l
  | fuel + 1, c :: rest =>
    if pat.isPrefixOf (c :: rest) then
      replaceAllAux pat fuel ((c :: rest).drop pat.length)
    else c :: replaceAllAux pat fuel rest

/-- str.replace(pat, "") at the top level. -/
def replaceAll (l pat : List Char) : List Char :=
  replaceAllAux pat l.length l

/-- Embedding of AgentOrchestrator._clean_json_response
(src/src/agents/orchestrator.py lines 63-77). -/
def orchCleanJsonResponse (response : List Char) : List Char :=
  if response = [] then response
  else
    let r := pyStrip response
    if tick3json.isPrefixOf r then
      pyStrip (replaceAll (replaceAll r tick3json) tick3)
    else if tick3.isPrefixOf r then
      pyStrip (replaceAll r tick3)
    else r

/-- String-level wrapper of the orchestrator cleaner. -/
def orchCleanStr (s : String) : String :=
  (orchCleanJsonResponse s.toList).asString

/-- datetime.now() + timedelta(days=q). -/
def addDays (d : PyDateTime) (q : Rat) : PyDateTime :=
  ⟨d.stamp + (q * 86400).floor⟩

/-- The deadline computation of the success path: a truthy
deadline_days must be numeric (bool counts as int), else TypeError. -/
def computeDeadline (pg : PVal) (now : PyDateTime) :
    Except PyErr (Option PyDateTime) := do
  let dd ← pyGetE pg "deadline_days" .null
  if pyTruthy dd then
    match dd with
    | .num q => pure (some (addDays now q))
    | .bool b => pure (some (addDays now (if b then 1 else 0)))
    | _ => Except.error .typeError
  else pure none

/-- Embedding of AgentOrchestrator.add_goal_from_natural_language: an
LLM failure, an empty response, a decode failure, or any exception on
the success path falls back to set_goal with the placeholder metrics
dict general_progress: 1.0. -/
def addGoalFromNaturalLanguage (contexts : String → Option CoreAgentContext)
    (accountId goalDescription : String)
    (respParse respPlan : Except PyErr String)
    (parse : String → Option PVal)
    (isoP : String → Except PyErr PyDateTime) (now : PyDateTime) :
    Except PyErr (CoreAgentGoal × CoreAgentContext) :=
  let fallback := setGoal contexts accountId goalDescription
    (.obj [("general_progress", .num 1)]) none respPlan parse isoP now
  match respParse with
  | .error _ => fallback
  | .ok r =>
    if r = "" ∨ pyStrip r.toList = [] then fallback
    else
      match parse (orchCleanStr r) with
      | none => fallback
      | some pg =>
        match (do
            let deadline ← computeDeadline pg now
            let descV ← pyIndexE pg "parsed_goal"
            let desc ← match descV with
              | .str s => pure s
              | _ => Except.error .validationError
            let metricsV ← pyIndexE pg "target_metrics"
            setGoal contexts accountId desc metricsV deadline respPlan
              parse isoP now :
            Except PyErr (CoreAgentGoal × CoreAgentContext)) with
        | .ok res => .ok res
        | .error _ => fallback

/-- The bare goal that every fallback path creates. -/
def fallbackGoal (accountId goalDescription : String) (now : PyDateTime) :
    CoreAgentGoal :=
  { id := accountId ++ "_" ++ toString now.stamp
    description := goalDescription
    target_metrics := [("general_progress", 1)]
    deadline := none
    created_at := now }

/-- The context the fallback set_goal produces. -/
def fallbackCtx (_contexts : String → Option CoreAgentContext)
    (accountId goalDescription : String) (ctx : CoreAgentContext)
    (respPlan : Except PyErr String) (parse : String → Option PVal)
    (isoP : String → Except PyErr PyDateTime) (now : PyDateTime) :
    CoreAgentContext :=
  planForGoal accountId
    { ctx with current_goals := ctx.current_goals ++
        [fallbackGoal accountId goalDescription now] }
    (fallbackGoal accountId goalDescription now) respPlan parse isoP now

lemma setGoal_fallback_eq (contexts : String → Option CoreAgentContext)
    (accountId goalDescription : String) (ctx : CoreAgentContext)
    (respPlan : Except PyErr String) (parse : String → Option PVal)
    (isoP : String → Except PyErr PyDateTime) (now : PyDateTime)
    (hreg : contexts accountId = some ctx) :
    setGoal contexts accountId goalDescription
        (.obj [("general_progress", .num 1)]) none respPlan parse isoP
        now =
      .ok (fallbackGoal accountId goalDescription now,
        fallbackCtx contexts accountId goalDescription ctx respPlan parse
          isoP now) := by
  have hm : metricsOfPVal (.obj [("general_progress", PVal.num 1)]) =
      .ok [("general_progress", (1 : Rat))] := rfl
  simp only [setGoal, hm, hreg, fallbackGoal, fallbackCtx]

/--
C5 confirmed: for a registered account, add_goal_from_natural_language
always returns a goal; when the parse LLM call raises, returns an empty
response, or returns text whose cleaned form fails to decode as JSON,
the returned goal is the bare fallback goal whose target metrics are
exactly general_progress: 1.0.
-/
theorem c5_goal_intake_fallback
    (contexts : String → Option CoreAgentContext)
    (accountId goalDescription : String) (ctx : CoreAgentContext)
    (respPlan : Except PyErr String) (parse : String → Option PVal)
    (isoP : String → Except PyErr PyDateTime) (now : PyDateTime)
    (hreg : contexts accountId = some ctx) :
    (∀ respParse, ∃ g ctx2,
        addGoalFromNaturalLanguage contexts accountId goalDescription
          respParse respPlan parse isoP now = .ok (g, ctx2)) ∧
    (∀ e, addGoalFromNaturalLanguage contexts accountId goalDescription
        (.error e) respPlan parse isoP now =
      .ok (fallbackGoal accountId goalDescription now,
        fallbackCtx contexts accountId goalDescription ctx respPlan parse
          isoP now)) ∧
    (∀ r, ((r = "" ∨ pyStrip r.toList = []) ∨
        parse (orchCleanStr r) = none) →
      addGoalFromNaturalLanguage contexts accountId goalDescription
        (.ok r) respPlan parse isoP now =
      .ok (fallbackGoal accountId goalDescription now,
        fallbackCtx contexts accountId goalDescription ctx respPlan parse
          isoP now)) ∧
    (fallbackGoal accountId goalDescription now).target_metrics =
      [("general_progress", 1)] := by
  have hfb := setGoal_fallback_eq contexts accountId goalDescription ctx
    respPlan parse isoP now hreg
  have herr : ∀ e, addGoalFromNaturalLanguage contexts accountId
      goalDescription (.error e) respPlan parse isoP now =
      .ok (fallbackGoal accountId goalDescription now,
        fallbackCtx contexts accountId goalDescription ctx respPlan parse
          isoP now) := by
    intro e
    simp only [addGoalFromNaturalLanguage]
    exact hfb
  have hok : ∀ r, ((r = "" ∨ pyStrip r.toList = []) ∨
      parse (orchCleanStr r) = none) →
      addGoalFromNaturalLanguage contexts accountId goalDescription
        (.ok r) respPlan parse isoP now =
      .ok (fallbackGoal accountId goalDescription now,
        fallbackCtx contexts accountId goalDescription ctx respPlan parse
          isoP now) := by
    intro r h
    by_cases hE : r = "" ∨ pyStrip r.toList = []
    · simp only [addGoalFromNaturalLanguage, if_pos hE]
      exact hfb
    · have hdecode : parse (orchCleanStr r) = none := by
        rcases h with h | h
        · exact absurd h hE
        · exact h
      simp only [addGoalFromNaturalLanguage, if_neg hE, hdecode]
      exact hfb
  refine ⟨?_, herr, hok, rfl⟩
  intro respParse
  cases respParse with
  | error e => exact ⟨_, _, herr e⟩
  | ok r =>
    by_cases hE : r = "" ∨ pyStrip r.toList = []
    · exact ⟨_, _, hok r (Or.inl hE)⟩
    · cases hp : parse (orchCleanStr r) with
      | none => exact ⟨_, _, hok r (Or.inr hp)⟩
      | some pg =>
        cases hdo : (do
            let deadline ← computeDeadline pg now
            let descV ← pyIndexE pg "parsed_goal"
            let desc ← match descV with
              | .str s => pure s
              | _ => Except.error .validationError
            let metricsV ← pyIndexE pg "target_metrics"
            setGoal contexts accountId desc metricsV deadline respPlan
              parse isoP now :
            Except PyErr (CoreAgentGoal × CoreAgentContext)) with
        | ok res =>
          refine ⟨res.1, res.2, ?_⟩
          simp only [addGoalFromNaturalLanguage, if_neg hE, hp, hdo]
        | error e =>
          refine ⟨fallbackGoal accountId goalDescription now,
            fallbackCtx contexts accountId goalDescription ctx respPlan
              parse isoP now, ?_⟩
          simp only [addGoalFromNaturalLanguage, if_neg hE, hp, hdo]
          exact hfb

/-- Closed witness for C5 at a concrete registered account whose parse
LLM call raises. -/
theorem c5_goal_intake_fallback_witness :
    addGoalFromNaturalLanguage
        (fun a => if a = "acct" then
          some { account_config := { account_id := "acct" }
                 memory := { last_updated := ⟨0⟩ } } else none)
        "acct" "grow followers" (.error .typeError) (.ok "plan")
        (fun _ => none) (fun _ => .error .typeError) ⟨7⟩ =
      .ok (fallbackGoal "acct" "grow followers" ⟨7⟩,
        fallbackCtx
          (fun a => if a = "acct" then
            some { account_config := { account_id := "acct" }
                   memory := { last_updated := ⟨0⟩ } } else none)
          "acct" "grow followers"
          { account_config := { account_id := "acct" }
            memory := { last_updated := ⟨0⟩ } }
          (.ok "plan") (fun _ => none) (fun _ => .error .typeError)
          ⟨7⟩) :=
  (c5_goal_intake_fallback _ "acct" "grow followers"
    { account_config := { account_id := "acct" }
      memory := { last_updated := ⟨0⟩ } }
    (.ok "plan") (fun _ => none) (fun _ => .error .typeError) ⟨7⟩
    rfl).2.1 .typeError

/-!
## C1: AgentMemoryManager.save_agent_context / load_agent_context
(src/src/agents/memory_manager.py lines 40-141)

save_agent_context serializes the models.py flavour of the context (it
reads completed_tasks, memory.account_id, last_activity,
performance_score — fields that only models.AgentContext has).  Its
model_dump output keeps datetime objects, which json.dump cannot
serialize: the dump raises TypeError midway, the except logs, and the
already-truncated file is left invalid.  load_agent_context rebuilds
goals and tasks with the models.py classes (local import on line 85) but
then calls the module-level AgentContext — the core_agent.py class
imported on line 18 — without its required account_config field, so
construction always raises ValidationError and the except returns the
fresh fallback AgentContext(account_config=account_config).
-/

/-- The models.py AgentGoal (src/src/agents/models.py lines 40-49). -/
structure MAgentGoal where
  id : String
  account_id : String
  description : String
  target_metrics : List (String × PVal) := []
  priority : TaskPriority := .medium
  deadline : Option PyDateTime := none
  created_at : PyDateTime
  status : String := "active"

/-- The models.py AgentTask (src/src/agents/models.py lines 52-68). -/
structure MAgentTask where
  id : String
  account_id : String
  goal_id : Option String := none
  type : String
  description : String
  parameters : List (String × PVal) := []
  assigned_role : AgentRole
  priority : TaskPriority := .medium
  status : TaskStatus := .pending
  created_at : PyDateTime
  scheduled_for : Option PyDateTime := none
  completed_at : Option PyDateTime := none
  result : Option (List (String × PVal)) := none
  retry_count : Int := 0
  max_retries : Int := 3

/-- The models.py AgentMemory (src/src/agents/models.py lines 71-77). -/
structure MAgentMemory where
  account_id : String
  successful_content_patterns : List PVal := []
  engagement_insights : List (String × PVal) := []
  performance_trends : List (String × PVal) := []
  last_updated : PyDateTime

/-- The models.py AgentContext (src/src/agents/models.py lines 80-88);
unlike the core context it has a completed-task collection. -/
structure MAgentContext where
  account_id : String
  current_goals : List MAgentGoal := []
  active_tasks : List MAgentTask := []
  completed_tasks : List MAgentTask := []
  memory : MAgentMemory
  last_activity : Option PyDateTime := none
  performance_score : Rat := 0

def roleValue : AgentRole → String
  | .strategist => "strategist"
  | .content_curator => "content_curator"
  | .engagement_manager => "engagement_manager"
  | .performance_analyst => "performance_analyst"
  | .content_creator => "content_creator"

def priorityValue : TaskPriority → String
  | .critical => "critical"
  | .high => "high"
  | .medium => "medium"
  | .low => "low"

def statusValue : TaskStatus → String
  | .pending => "pending"
  | .in_progress => "in_progress"
  | .completed => "completed"
  | .failed => "failed"
  | .cancelled => "cancelled"

/-- An optional datetime in a model_dump. -/
def optDT : Option PyDateTime → PVal
  | none => .null
  | some d => .datetime d

/-- model_dump of a models.py goal: datetimes stay datetime objects. -/
def mGoalDump (g : MAgentGoal) : PVal :=
  .obj [("id", .str g.id), ("account_id", .str g.account_id),
    ("description", .str g.description),
    ("target_metrics", .obj g.target_metrics),
    ("priority", .str (priorityValue g.priority)),
    ("deadline", optDT g.deadline),
    ("created_at", .datetime g.created_at),
    ("status", .str g.status)]

/-- model_dump of a models.py task: datetimes stay datetime objects. -/
def mTaskDump (t : MAgentTask) : PVal :=
  .obj [("id", .str t.id), ("account_id", .str t.account_id),
    ("goal_id", match t.goal_id with | none => .null | some s => .str s),
    ("type", .str t.type), ("description", .str t.description),
    ("parameters", .obj t.parameters),
    ("assigned_role", .str (roleValue t.assigned_role)),
    ("priority", .str (priorityValue t.priority)),
    ("status", .str (statusValue t.status)),
    ("created_at", .datetime t.created_at),
    ("scheduled_for", optDT t.scheduled_for),
    ("completed_at", optDT t.completed_at),
    ("result", match t.result with | none => .null | some fs => .obj fs),
    ("retry_count", .num t.retry_count),
    ("max_retries", .num t.max_retries)]

mutual
/-- Whether json.dump can serialize the value (datetimes cannot). -/
def jsonDumpOk : PVal → Bool
  | .datetime _ => false
  | .arr l => jsonDumpOkList l
  | .obj fs => jsonDumpOkFields fs
  | _ => true

def jsonDumpOkList : List PVal → Bool
  | [] => true
  | v :: t => jsonDumpOk v && jsonDumpOkList t

def jsonDumpOkFields : List (String × PVal) → Bool
  | [] => true
  | (_, v) :: t => jsonDumpOk v && jsonDumpOkFields t
end

/-- The context_data dict that save_agent_context builds
(src/src/agents/memory_manager.py lines 46-61). -/
def contextData (accountId : String) (ctx : MAgentContext)
    (savedAt : PyDateTime) : PVal :=
  .obj [("account_id", .str accountId),
    ("current_goals", .arr (ctx.current_goals.map mGoalDump)),
    ("active_tasks", .arr (ctx.active_tasks.map mTaskDump)),
    ("completed_tasks", .arr (ctx.completed_tasks.map mTaskDump)),
    ("memory", .obj [("account_id", .str ctx.memory.account_id),
      ("successful_content_patterns",
        .arr ctx.memory.successful_content_patterns),
      ("engagement_insights", .obj ctx.memory.engagement_insights),
      ("performance_trends", .obj ctx.memory.performance_trends),
      ("last_updated", .str ctx.memory.last_updated.iso)]),
    ("last_activity",
      match ctx.last_activity with
      | some d => .str d.iso
      | none => .null),
    ("performance_score", .num ctx.performance_score),
    ("saved_at", .str savedAt.iso)]

/-- The state of the per-account snapshot file. -/
inductive SnapshotFile where
  | absent
  | corrupt
  | valid (data : PVal)

/-- Embedding of save_agent_context: the file is opened for writing
(truncated) and json.dump streams the context_data into it; when the
data holds a datetime, json.dump raises TypeError midway, the except logs
and returns, and the file is left with a truncated, invalid document. -/
def saveAgentContext (accountId : String) (ctx : MAgentContext)
    (savedAt : PyDateTime) : SnapshotFile :=
  let data := contextData accountId ctx savedAt
  if jsonDumpOk data then .valid data else .corrupt

/-- The try body of load_agent_context.  In every branch the final
context construction calls the module-level AgentContext — the
core_agent.py class (import on line 18; the local import on line 85
rebinds only AgentGoal, AgentTask and the enums) — without its required
account_config field, so pydantic raises ValidationError; a corrupt file
already fails at json.load. -/
def loadTryBody (file : SnapshotFile) (_accountId : String) :
    Except PyErr CoreAgentContext :=
  match file with
  | .absent =>
    -- AgentMemory(account_id=...) succeeds (extra keyword ignored), then
    -- AgentContext(account_id=..., memory=...) lacks account_config
    .error .validationError
  | .corrupt => .error .jsonDecodeError
  | .valid _data =>
    -- goals, tasks and memory are rebuilt (models.py classes), then
    -- AgentContext(account_id=..., current_goals=..., active_tasks=...,
    -- completed_tasks=..., memory=..., last_activity=...,
    -- performance_score=...) lacks account_config
    .error .validationError

/-- Embedding of load_agent_context: on any exception the except handler
returns the fresh AgentContext(account_config=account_config); now is
the default-factory time of its memory. -/
def loadAgentContext (file : SnapshotFile) (accountId : String)
    (accountConfig : AccountConfig) (now : PyDateTime) :
    CoreAgentContext :=
  match loadTryBody file accountId with
  | .ok c => c
  | .error _ =>
    { account_config := accountConfig, memory := { last_updated := now } }

lemma jsonDumpOk_obj (fs : List (String × PVal)) :
    jsonDumpOk (.obj fs) = jsonDumpOkFields fs := rfl

lemma jsonDumpOk_arr (l : List PVal) :
    jsonDumpOk (.arr l) = jsonDumpOkList l := rfl

lemma jsonDumpOk_str (s : String) : jsonDumpOk (.str s) = true := rfl

lemma jsonDumpOk_num (q : Rat) : jsonDumpOk (.num q) = true := rfl

lemma jsonDumpOk_datetime (d : PyDateTime) :
    jsonDumpOk (.datetime d) = false := rfl

lemma jsonDumpOkFields_cons (k : String) (v : PVal)
    (t : List (String × PVal)) :
    jsonDumpOkFields ((k, v) :: t) = (jsonDumpOk v && jsonDumpOkFields t) :=
  rfl

lemma jsonDumpOkList_cons (v : PVal) (t : List PVal) :
    jsonDumpOkList (v :: t) = (jsonDumpOk v && jsonDumpOkList t) := rfl

lemma jsonDumpOk_mGoalDump (g : MAgentGoal) :
    jsonDumpOk (mGoalDump g) = false := by
  simp only [mGoalDump, jsonDumpOk_obj, jsonDumpOkFields_cons,
    jsonDumpOk_str, jsonDumpOk_datetime, Bool.and_false, Bool.false_and,
    Bool.true_and]

lemma jsonDumpOk_contextData_with_goal (accountId : String)
    (ctx : MAgentContext) (savedAt : PyDateTime)
    (h : ctx.current_goals ≠ []) :
    jsonDumpOk (contextData accountId ctx savedAt) = false := by
  cases hg : ctx.current_goals with
  | nil => exact absurd hg h
  | cons g gs =>
    have h1 : jsonDumpOkList (List.map mGoalDump (g :: gs)) = false := by
      rw [List.map_cons, jsonDumpOkList_cons, jsonDumpOk_mGoalDump,
        Bool.false_and]
    simp only [contextData, hg, jsonDumpOk_obj, jsonDumpOkFields_cons,
      jsonDumpOk_str, jsonDumpOk_arr, h1, Bool.and_false, Bool.false_and,
      Bool.true_and]

def c1Goal : MAgentGoal :=
  { id := "g1", account_id := "acct", description := "grow",
    created_at := ⟨1⟩ }

def c1Task : MAgentTask :=
  { id := "t1", account_id := "acct", type := "create_tweet",
    description := "post", assigned_role := .content_creator,
    created_at := ⟨2⟩ }

def c1Ctx : MAgentContext :=
  { account_id := "acct", current_goals := [c1Goal],
    active_tasks := [c1Task],
    memory := { account_id := "acct", last_updated := ⟨3⟩ } }

/--
C1 (code bug): the save/load round trip always loses the goals and
tasks.  Loading any file state yields a context with no goals and no
tasks (the reconstruction always falls into the fresh-context except
path because the wrong AgentContext class is constructed without its
required account_config); and saving any context that holds at least one
goal leaves a corrupt snapshot, because model_dump keeps the goal's
created_at as a datetime that json.dump cannot serialize.  In
particular, for the concrete context with one goal and one task, the
loaded context holds zero goals and zero tasks.
-/
theorem c1_roundtrip_loses_goals :
    (∀ (file : SnapshotFile) (accountId : String)
        (cfg : AccountConfig) (now : PyDateTime),
      (loadAgentContext file accountId cfg now).current_goals = [] ∧
      (loadAgentContext file accountId cfg now).active_tasks = []) ∧
    (∀ (accountId : String) (ctx : MAgentContext) (savedAt : PyDateTime),
      ctx.current_goals ≠ [] →
      saveAgentContext accountId ctx savedAt = .corrupt) ∧
    ((loadAgentContext (saveAgentContext "acct" c1Ctx ⟨5⟩) "acct"
        ⟨"acct"⟩ ⟨6⟩).current_goals.length = 0 ∧
      (loadAgentContext (saveAgentContext "acct" c1Ctx ⟨5⟩) "acct"
        ⟨"acct"⟩ ⟨6⟩).active_tasks.length = 0 ∧
      c1Ctx.current_goals.length = 1 ∧ c1Ctx.active_tasks.length = 1) := by
  refine ⟨?_, ?_, rfl, rfl, rfl, rfl⟩
  · intro file accountId cfg now
    cases file <;> exact ⟨rfl, rfl⟩
  · intro accountId ctx savedAt h
    rw [saveAgentContext]
    rw [if_neg]
    rw [jsonDumpOk_contextData_with_goal accountId ctx savedAt h]
    exact Bool.noConfusion

/-- Closed witness for the C1 theorem at the concrete one-goal context. -/
theorem c1_roundtrip_loses_goals_witness :
    saveAgentContext "acct" c1Ctx ⟨5⟩ = .corrupt :=
  c1_roundtrip_loses_goals.2.1 "acct" c1Ctx ⟨5⟩
    (by simp [c1Ctx])

/-!
## C9: AgentOrchestrator._execute_specialized_tasks
(src/src/agents/orchestrator.py lines 328-374)

The tasks in the core context's active list are core_agent.AgentTask
objects; every specialized handler's can_handle_task starts with
hasattr(task, "type") (for example
src/src/agents/specialized/content_creator.py line 41), and
core_agent.AgentTask has no type attribute, so the conjunction is always
False, no task is ever handed to a handler, and no status ever changes.
Even the would-be execution branch only reassigns task.status in place;
the core AgentContext has no completed-task collection to move tasks to.
-/

/-- A specialized handler as the dispatch loop sees it: its role and its
fixed accepted task-type list. -/
structure SpecializedAgent where
  role : AgentRole
  taskTypes : List String

/-- can_handle_task: hasattr(task, "type") and task.type in task_types.
core_agent.AgentTask has no type attribute, so hasattr is False and the
conjunction short-circuits to False for every task of this loop. -/
def canHandleTask (_agent : SpecializedAgent) (_task : CoreAgentTask) :
    Bool :=
  false

/-- One iteration of the dispatch loop over a task: skip non-pending
tasks, look the handler up by the task's role value, and only act when
the handler accepts the task — which never happens here. -/
def execSpecializedTask (agents : String → Option SpecializedAgent)
    (task : CoreAgentTask) : CoreAgentTask :=
  if statusValue task.status ≠ "pending" then task
  else
    let agent :=
      if roleValue task.role = "content_creator" then
        agents "content_creator"
      else if roleValue task.role = "content_curator" then
        agents "content_curator"
      else if roleValue task.role = "engagement_manager" then
        agents "engagement_manager"
      else if roleValue task.role = "performance_analyst" then
        agents "performance_analyst"
      else none
    match agent with
    | none => task
    | some a =>
      if canHandleTask a task then
        -- unreachable: the handler would run and task.status would be
        -- reassigned in place; nothing is ever removed from active_tasks
        task
      else task

/-- Embedding of _execute_specialized_tasks over an account's context. -/
def execSpecializedTasks (agents : String → Option SpecializedAgent)
    (ctx : CoreAgentContext) : CoreAgentContext :=
  { ctx with
    active_tasks := ctx.active_tasks.map (execSpecializedTask agents) }

lemma execSpecializedTask_id (agents : String → Option SpecializedAgent)
    (task : CoreAgentTask) : execSpecializedTask agents task = task := by
  rw [execSpecializedTask]
  by_cases h : statusValue task.status ≠ "pending"
  · rw [if_pos h]
  · rw [if_neg h]
    cases (if roleValue task.role = "content_creator" then
        agents "content_creator"
      else if roleValue task.role = "content_curator" then
        agents "content_curator"
      else if roleValue task.role = "engagement_manager" then
        agents "engagement_manager"
      else if roleValue task.role = "performance_analyst" then
        agents "performance_analyst"
      else none) with
    | none => rfl
    | some a => rfl

def c9Task : CoreAgentTask :=
  { id := "t1"
    role := .content_creator
    description := "post"
    created_at := ⟨1⟩
    updated_at := ⟨1⟩ }

def c9Ctx : CoreAgentContext :=
  { account_config := { account_id := "acct" }
    active_tasks := [c9Task]
    memory := { last_updated := ⟨0⟩ } }

/-- The four handlers the orchestrator registers per account, with the
task-type lists from the specialized modules. -/
def c9Agents : String → Option SpecializedAgent := fun name =>
  if name = "content_creator" then
    some { role := .content_creator
           taskTypes := ["create_tweet", "create_thread", "write_reply",
             "generate_content"] }
  else if name = "content_curator" then
    some { role := .content_curator
           taskTypes := ["curate_content", "find_trending",
             "analyze_content", "discover_opportunities"] }
  else if name = "engagement_manager" then
    some { role := .engagement_manager
           taskTypes := ["reply_to_mention", "like_tweets",
             "retweet_content", "follow_accounts", "engage_community"] }
  else if name = "performance_analyst" then
    some { role := .performance_analyst
           taskTypes := ["analyze_performance", "track_metrics",
             "generate_report", "optimize_strategy"] }
  else none

/--
C9 (code bug): _execute_specialized_tasks changes nothing — for every
handler registry and every context the context comes back unchanged, so
no task is ever executed, no task ever reaches a terminal status here,
and nothing is ever moved out of the active-task list (the core
AgentContext has no completed-task collection at all).  In particular a
pending content-creator task stays pending in the active list even with
all four handlers registered.
-/
theorem c9_no_task_movement :
    (∀ (agents : String → Option SpecializedAgent)
        (ctx : CoreAgentContext),
      execSpecializedTasks agents ctx = ctx) ∧
    (execSpecializedTasks c9Agents c9Ctx).active_tasks = [c9Task] ∧
    c9Task.status = .pending := by
  have hid : ∀ (agents : String → Option SpecializedAgent)
      (ctx : CoreAgentContext), execSpecializedTasks agents ctx = ctx := by
    intro agents ctx
    rw [execSpecializedTasks]
    have : ctx.active_tasks.map (execSpecializedTask agents) =
        ctx.active_tasks := by
      induction ctx.active_tasks with
      | nil => rfl
      | cons t ts ih =>
        rw [List.map_cons, execSpecializedTask_id, ih]
    rw [this]
  exact ⟨hid, by rw [hid]; rfl, rfl⟩

/-!
## C10: AgentOrchestrator.get_account_goals / get_account_tasks
(src/src/agents/orchestrator.py lines 504-518)
-/

/-- model_dump of a core_agent.py goal. -/
def coreGoalDump (g : CoreAgentGoal) : PVal :=
  .obj [("id", .str g.id), ("description", .str g.description),
    ("target_metrics", .obj (g.target_metrics.map
      (fun kv => (kv.1, .num kv.2)))),
    ("deadline", optDT g.deadline),
    ("priority", .str (priorityValue g.priority)),
    ("is_active", .bool g.is_active),
    ("progress", .num g.progress),
    ("created_at", .datetime g.created_at)]

/-- model_dump of a core_agent.py task. -/
def coreTaskDump (t : CoreAgentTask) : PVal :=
  .obj [("id", .str t.id),
    ("goal_id", match t.goal_id with | none => .null | some s => .str s),
    ("role", .str (roleValue t.role)),
    ("description", .str t.description),
    ("parameters", .obj t.parameters),
    ("priority", .str (priorityValue t.priority)),
    ("status", .str (statusValue t.status)),
    ("scheduled_time", optDT t.scheduled_time),
    ("deadline", optDT t.deadline),
    ("retry_count", .num t.retry_count),
    ("max_retries", .num t.max_retries),
    ("result", match t.result with | none => .null | some fs => .obj fs),
    ("error_message",
      match t.error_message with | none => .null | some s => .str s),
    ("created_at", .datetime t.created_at),
    ("updated_at", .datetime t.updated_at)]

/-- Embedding of get_account_goals. -/
def getAccountGoals (contexts : String → Option CoreAgentContext)
    (accountId : String) : List PVal :=
  match contexts accountId with
  | none => []
  | some ctx => ctx.current_goals.map coreGoalDump

/-- Embedding of get_account_tasks. -/
def getAccountTasks (contexts : String → Option CoreAgentContext)
    (accountId : String) : List PVal :=
  match contexts accountId with
  | none => []
  | some ctx => ctx.active_tasks.map coreTaskDump

/--
C10 confirmed: for an account id with no registered context, both
get_account_goals and get_account_tasks return the empty list, without
raising and without an error value.
-/
theorem c10_unknown_account_empty_lists
    (contexts : String → Option CoreAgentContext) (accountId : String)
    (h : contexts accountId = none) :
    getAccountGoals contexts accountId = [] ∧
      getAccountTasks contexts accountId = [] := by
  rw [getAccountGoals, getAccountTasks, h]
  exact ⟨rfl, rfl⟩

/-- Closed witness for C10 on the empty registry. -/
theorem c10_unknown_account_empty_lists_witness :
    getAccountGoals (fun _ => none) "ghost" = [] ∧
      getAccountTasks (fun _ => none) "ghost" = [] :=
  c10_unknown_account_empty_lists (fun _ => none) "ghost" rfl
